import Mathlib

set_option linter.unusedVariables false

/-!
Shallow embedding of `src/.utils/validate_addon.py`, the changed-file
validator for add-on template repositories.

YAML/JSON documents are modelled by `Value`; reading-and-parsing a file is
modelled by an `Env` of abstract readers (path to parse result), matching the
spec's externally supplied file-content reader.  Python exceptions are
modelled by `Err`; each Python `raise` becomes an `Except.error`.
-/

mutual

/-- A parsed YAML/JSON document: nested dictionaries, lists and scalars.
Dictionary entry sequences and list element sequences are their own
inductive types so that all recursion over documents is structural. -/
inductive Value where
  | vstr (s : String)
  | vint (n : Int)
  | vbool (b : Bool)
  | vnull
  | vdict (fields : ValueFields)
  | vlist (elems : ValueElems)
deriving Repr

/-- The entries of a dictionary document, in order (Python dicts have unique
keys; YAML loading keeps one entry per key). -/
inductive ValueFields where
  | nil
  | cons (key : String) (value : Value) (rest : ValueFields)
deriving Repr

/-- The elements of a list document, in order. -/
inductive ValueElems where
  | nil
  | cons (value : Value) (rest : ValueElems)
deriving Repr

end

/-- Dictionary entries from an association list (notation helper). -/
def ValueFields.ofList : List (String × Value) → ValueFields
  | [] => .nil
  | (k, v) :: rest => .cons k v (ValueFields.ofList rest)

/-- List elements from a list (notation helper). -/
def ValueElems.ofList : List Value → ValueElems
  | [] => .nil
  | v :: rest => .cons v (ValueElems.ofList rest)

/-- A dictionary document from an association list. -/
def Value.dictOf (l : List (String × Value)) : Value := .vdict (ValueFields.ofList l)

/-- A list document from a list. -/
def Value.listOf (l : List Value) : Value := .vlist (ValueElems.ofList l)

/-- Python exceptions raised (directly or indirectly) by the validator.
`valueError` is the validator's own `raise ValueError(msg)`; the others model
exceptions escaping from dictionary subscripts (`KeyError`), operations on a
value of the wrong type (`TypeError`), `next()` on an exhausted generator
(`StopIteration`) and an unparseable file read outside the guarded
parseability check. -/
inductive Err where
  | valueError : String → Err
  | keyError : String → Err
  | typeError : String → Err
  | stopIteration : Err
  | parseError : String → Err
deriving DecidableEq, Repr

/-- Python `str(e)` of a caught exception `e`, used when an exception is
interpolated into an aggregated message; `str(KeyError(k))` is `repr(k)`. -/
def Err.str : Err → String
  | .valueError m => m
  | .keyError k => "'" ++ k ++ "'"
  | .typeError m => m
  | .stopIteration => ""
  | .parseError m => m

mutual

/-- Structural equality of documents, modelling Python `==` as the validator
uses it (every comparison the validator performs is against a string literal
or a string slug, where Python equality is exactly structural equality;
Python's numeric `True == 1` coercion and order-insensitive dict equality
are never exercised against strings). -/
def Value.beq : Value → Value → Bool
  | .vstr a, .vstr b => a == b
  | .vint a, .vint b => a == b
  | .vbool a, .vbool b => a == b
  | .vnull, .vnull => true
  | .vdict a, .vdict b => ValueFields.beq a b
  | .vlist a, .vlist b => ValueElems.beq a b
  | _, _ => false

/-- Pointwise equality of dictionary entries. -/
def ValueFields.beq : ValueFields → ValueFields → Bool
  | .nil, .nil => true
  | .cons k v r, .cons k' v' r' => k == k' && Value.beq v v' && ValueFields.beq r r'
  | _, _ => false

/-- Pointwise equality of list elements. -/
def ValueElems.beq : ValueElems → ValueElems → Bool
  | .nil, .nil => true
  | .cons v r, .cons v' r' => Value.beq v v' && ValueElems.beq r r'
  | _, _ => false

end

mutual

/-- Python `repr(value)` for parsed documents (scalars rendered as Python
renders them; containers recursively). -/
def pyRepr : Value → String
  | .vstr s => "'" ++ s ++ "'"
  | .vint n => toString n
  | .vbool b => if b then "True" else "False"
  | .vnull => "None"
  | .vdict d => "\x7b" ++ String.intercalate ", " (pyReprFields d) ++ "\x7d"
  | .vlist l => "[" ++ String.intercalate ", " (pyReprElems l) ++ "]"

/-- `repr` of each dictionary entry, as `'key': repr(value)`. -/
def pyReprFields : ValueFields → List String
  | .nil => []
  | .cons k v rest => ("'" ++ k ++ "': " ++ pyRepr v) :: pyReprFields rest

/-- `repr` of each list element. -/
def pyReprElems : ValueElems → List String
  | .nil => []
  | .cons v rest => pyRepr v :: pyReprElems rest

end

/-- Python `str(value)` as used in f-string interpolation: identity on
strings, `repr` otherwise. -/
def pyStr : Value → String
  | .vstr s => s
  | v => pyRepr v

/-- First-match dictionary lookup: Python `d[k]` on a dict with key `k`. -/
def dictGet (d : ValueFields) (k : String) : Option Value :=
  match d with
  | .nil => none
  | .cons k' v rest => if k' = k then some v else dictGet rest k

/-- Python's type name of a parsed document value, `type(value).__name__`. -/
def typeName : Value → String
  | .vstr _ => "str"
  | .vint _ => "int"
  | .vbool _ => "bool"
  | .vnull => "NoneType"
  | .vdict _ => "dict"
  | .vlist _ => "list"

/-- Whether a list document has an element Python-equal to the given string
(Python `key in list`). -/
def elemsContainStr (l : ValueElems) (key : String) : Bool :=
  match l with
  | .nil => false
  | .cons v rest => Value.beq v (.vstr key) || elemsContainStr rest key

/-- Substring occurrence on character lists (Python `needle in haystack` for
strings). -/
def charsHaveInfix (needle hay : List Char) : Bool :=
  match hay with
  | [] => needle.isEmpty
  | _ :: t => needle.isPrefixOf hay || charsHaveInfix needle t

/-- Python `key in data` for arbitrary `data` (dict key lookup, list
membership, substring test on strings; `TypeError` otherwise). -/
def pyContains (data : Value) (key : String) : Except Err Bool :=
  match data with
  | .vdict d => .ok (dictGet d key).isSome
  | .vlist l => .ok (elemsContainStr l key)
  | .vstr s => .ok (charsHaveInfix key.data s.data)
  | v => .error (.typeError ("argument of type '" ++ typeName v ++ "' is not iterable"))

/-- Python `data[key]` with a string key: succeeds only on dicts that hold
the key (`KeyError` if absent, `TypeError` on non-dicts). -/
def pySubscript (data : Value) (key : String) : Except Err Value :=
  match data with
  | .vdict d =>
      match dictGet d key with
      | some v => .ok v
      | none => .error (.keyError key)
  | v => .error (.typeError (typeName v ++ " indices must be integers"))

/-- The abstract file-content reader and parser supplied to the validator:
`yamlFile p` / `jsonFile p` is the result of opening path `p` and parsing it
as YAML / JSON (`none` models any exception from `open` or the parser), and
`jsonText s` is `json.loads` applied to the string `s` (the error carries
the parser's message, interpolated into the dashboard error). -/
structure Env where
  yamlFile : String → Option Value
  jsonFile : String → Option Value
  jsonText : String → Except String Value

/-- A Python `type` object appearing as a type marker in an expected
structure (`str`, `dict`, ... in the schema tables). -/
inductive PyTy where
  | str | int | bool | list | dict
deriving DecidableEq, Repr

/-- `__name__` of the type object. -/
def PyTy.name : PyTy → String
  | .str => "str"
  | .int => "int"
  | .bool => "bool"
  | .list => "list"
  | .dict => "dict"

/-- Python `isinstance(v, t)` for parsed documents (`bool` is a subclass of
`int` in Python). -/
def pyIsInstance (t : PyTy) (v : Value) : Bool :=
  match t, v with
  | .str, .vstr _ => true
  | .int, .vint _ => true
  | .int, .vbool _ => true
  | .bool, .vbool _ => true
  | .list, .vlist _ => true
  | .dict, .vdict _ => true
  | _, _ => false

mutual

/-- A declarative expected-structure specification, the tagged variant over
literal values, type markers and nested shapes that the source encodes as
nested Python dicts (`TEAM_EXPECTED_STRUCTURE`, ...).  The source's
`check_structure` also has a branch for an expected value that is itself a
Python list (a single-element list template); none of the five expected
structures in the program contains a list template, so that dead branch has
no counterpart here. -/
inductive Expected where
  | lit (v : Value)
  | ty (t : PyTy)
  | nested (fields : ExpectedFields)
deriving Repr

/-- The ordered required keys of one level of an expected structure. -/
inductive ExpectedFields where
  | nil
  | cons (key : String) (e : Expected) (rest : ExpectedFields)
deriving Repr

end

/-- Expected fields from an association list (notation helper). -/
def ExpectedFields.ofList : List (String × Expected) → ExpectedFields
  | [] => .nil
  | (k, e) :: rest => .cons k e (ExpectedFields.ofList rest)

mutual

/-- `check_structure(data, expected, file_path, parent)`: iterate over the
expected keys in order; a missing key, wrong shape, wrong type or wrong
literal raises `ValueError` with the dotted key path; keys of `data` not
named in `expected` are ignored. -/
def check_structure (data : Value) (expected : ExpectedFields) (file_path parent : String) : Except Err Unit :=
  match expected with
  | .nil => .ok ()
  | .cons key expected_value rest => do
      let full_key := parent ++ key
      let present ← pyContains data key
      if !present then
        throw (.valueError s!"{file_path}: Missing key '{full_key}'.")
      else do
        let value ← pySubscript data key
        checkExpectedValue expected_value value file_path full_key
        check_structure data rest file_path parent

/-- The body of one `check_structure` loop iteration, dispatching on the
expected value: nested dict shape, type marker, literal (a literal `None`
checks nothing beyond the key's presence). -/
def checkExpectedValue (expected_value : Expected) (value : Value) (file_path full_key : String) : Except Err Unit :=
  match expected_value with
  | .nested ns =>
      match value with
      | .vdict _ => check_structure value ns file_path (full_key ++ ".")
      | _ => throw (.valueError s!"{file_path}: '{full_key}' should be a dictionary.")
  | .ty t =>
      if pyIsInstance t value then .ok ()
      else throw (.valueError s!"{file_path}: '{full_key}' should be of type '{t.name}', found '{typeName value}'.")
  | .lit lv =>
      match lv with
      | .vnull => .ok ()
      | _ =>
          if Value.beq value lv then .ok ()
          else throw (.valueError s!"{file_path}: '{full_key}' should be '{pyStr lv}', found '{pyStr value}'.")

end

-- Schema Catalog ------------------------------------------------------------

/-- `ALL_ASSET_TYPES`: recognized asset-directory names and their accepted
file extensions, in source (insertion) order. -/
def ALL_ASSET_TYPES : List (String × List String) :=
  [("dashboards", [".yaml", ".yml"]),
   ("monitors", [".yaml", ".yml"]),
   ("notification-policies", [".yaml", ".yml"]),
   ("collectors", [".yaml", ".yml"]),
   ("processors", [".json"]),
   ("parsers", [".conf"])]

/-- `PLATFORM_ASSET_TYPES`. -/
def PLATFORM_ASSET_TYPES : List String := ["dashboards", "monitors", "notification-policies"]

/-- `TEAM_EXPECTED_STRUCTURE`. -/
def TEAM_EXPECTED_STRUCTURE : ExpectedFields := ExpectedFields.ofList
  [("api_version", .lit (.vstr "v1/config")),
   ("kind", .lit (.vstr "Team")),
   ("spec", .nested (ExpectedFields.ofList
     [("slug", .ty .str), ("name", .ty .str)]))]

/-- `COLLECTION_EXPECTED_STRUCTURE`. -/
def COLLECTION_EXPECTED_STRUCTURE : ExpectedFields := ExpectedFields.ofList
  [("api_version", .lit (.vstr "v1/config")),
   ("kind", .lit (.vstr "Collection")),
   ("spec", .nested (ExpectedFields.ofList
     [("slug", .ty .str), ("name", .ty .str), ("team_slug", .ty .str)]))]

/-- `DASHBOARD_EXPECTED_STRUCTURE`: note that `spec.dashboard_json` is given
the type marker `str`. -/
def DASHBOARD_EXPECTED_STRUCTURE : ExpectedFields := ExpectedFields.ofList
  [("api_version", .lit (.vstr "v1/config")),
   ("kind", .lit (.vstr "Dashboard")),
   ("spec", .nested (ExpectedFields.ofList
     [("slug", .ty .str), ("name", .ty .str),
      ("collection_slug", .ty .str), ("dashboard_json", .ty .str)]))]

/-- `MONITOR_EXPECTED_STRUCTURE`. -/
def MONITOR_EXPECTED_STRUCTURE : ExpectedFields := ExpectedFields.ofList
  [("api_version", .lit (.vstr "v1/config")),
   ("kind", .lit (.vstr "Monitor")),
   ("spec", .nested (ExpectedFields.ofList
     [("slug", .ty .str), ("name", .ty .str),
      ("collection_slug", .ty .str), ("notification_policy_slug", .ty .str),
      ("prometheus_query", .ty .str)]))]

/-- `NOTIFICATION_POLICY_EXPECTED_STRUCTURE`. -/
def NOTIFICATION_POLICY_EXPECTED_STRUCTURE : ExpectedFields := ExpectedFields.ofList
  [("api_version", .lit (.vstr "v1/config")),
   ("kind", .lit (.vstr "NotificationPolicy")),
   ("spec", .nested (ExpectedFields.ofList
     [("slug", .ty .str), ("name", .ty .str), ("team_slug", .ty .str),
      ("routes", .nested (ExpectedFields.ofList [("defaults", .ty .dict)]))]))]

-- Path helpers ---------------------------------------------------------------

/-- `str.startswith` as list-of-characters prefix (extensionally Python's
`startswith`). -/
def strStartsWith (s pre : String) : Bool := pre.data.isPrefixOf s.data

/-- `str.endswith` as list-of-characters suffix (extensionally Python's
`endswith`). -/
def strEndsWith (s suf : String) : Bool := suf.data.isSuffixOf s.data

/-- `str.endswith(tuple_of_suffixes)`. -/
def endsWithAny (s : String) (sufs : List String) : Bool := sufs.any (strEndsWith s)

/-- Whether a path has a YAML extension, Python `f.endswith((".yaml", ".yml"))`. -/
def yamlExt (f : String) : Bool := strEndsWith f ".yaml" || strEndsWith f ".yml"

/-- `re.search(r"team\.ya?ml$", f)`: the path ends in `team.yaml` or `team.yml`. -/
def teamFileMatch (f : String) : Bool := strEndsWith f "team.yaml" || strEndsWith f "team.yml"

/-- `re.search(r"collection\.ya?ml$", f)`: the path ends in `collection.yaml`
or `collection.yml`. -/
def collectionFileMatch (f : String) : Bool :=
  strEndsWith f "collection.yaml" || strEndsWith f "collection.yml"

/-- `re.fullmatch(rf"templates/{vendor_product}/manifest\.ya?ml", f)`, i.e.
equality with one of the two manifest paths (the interpolated product name
is treated literally; product names carry no regex metacharacters). -/
def manifestMatch (vendor_product f : String) : Bool :=
  f == s!"templates/{vendor_product}/manifest.yaml" || f == s!"templates/{vendor_product}/manifest.yml"

-- Directory-level validation functions ---------------------------------------

/-- `validate_files_parseable`: every touched `.yaml`/`.yml` file must parse
as YAML and every touched `.json` file as JSON; any parse failure raises
`ValueError` naming the file.  Files with other extensions are not opened. -/
def validate_files_parseable (env : Env) (vendor_product : String) (files : List String) : Except Err Unit :=
  files.forM fun file =>
    if strEndsWith file ".yaml" || strEndsWith file ".yml" then
      match env.yamlFile file with
      | some _ => .ok ()
      | none => .error (.valueError s!"{vendor_product}: The YAML file '{file}' could not be parsed.")
    else if strEndsWith file ".json" then
      match env.jsonFile file with
      | some _ => .ok ()
      | none => .error (.valueError s!"{vendor_product}: The JSON file '{file}' could not be parsed.")
    else .ok ()

/-- `check_readme_file`: the exact path `templates/<product>/README.md` must
be among the touched files. -/
def check_readme_file (vendor_product : String) (files : List String) : Except Err Unit :=
  let readme_file := s!"templates/{vendor_product}/README.md"
  if !(files.any (fun f => f == readme_file)) then
    .error (.valueError s!"{vendor_product}: Missing README.md in the commit/PR.")
  else .ok ()

/-- Load a file as YAML where a parse failure is not caught by the validator
(the parser's own exception propagates). -/
def loadYaml (env : Env) (file : String) : Except Err Value :=
  match env.yamlFile file with
  | some v => .ok v
  | none => .error (.parseError s!"could not load {file}")

/-- The inner key-requirement loop over one list element of the manifest:
`for key in required_keys: if key not in element: raise`. -/
def manifestRequireKeys (manifest_file listName : String) (idx : Nat) (element : Value) (keys : List String) : Except Err Unit :=
  match keys with
  | [] => .ok ()
  | key :: rest => do
      let present ← pyContains element key
      if !present then
        throw (.valueError s!"Manifest file {manifest_file}: '{listName}[{idx}]' is missing required key: {key}")
      else
        manifestRequireKeys manifest_file listName idx element rest

/-- The enumerated loop over a manifest list, checking each element for the
given required keys under `listName[i]`. -/
def manifestListLoop (manifest_file listName : String) (keys : List String) (idx : Nat) (elements : ValueElems) : Except Err Unit :=
  match elements with
  | .nil => .ok ()
  | .cons element rest => do
      manifestRequireKeys manifest_file listName idx element keys
      manifestListLoop manifest_file listName keys (idx + 1) rest

/-- `validate_manifest_file`: the manifest must parse, contain top-level keys
`tech_type` and `asset_list`; an optional `data_source_and_docs` must be a
list whose elements carry `title` and `url`; `asset_list` must be a list
whose elements carry the six required asset keys. -/
def validate_manifest_file (env : Env) (manifest_file : String) : Except Err Unit := do
  let manifest ← loadYaml env manifest_file
  (["tech_type", "asset_list"].forM fun key => do
    let present ← pyContains manifest key
    if !present then
      throw (.valueError s!"Manifest file {manifest_file} is missing required key: {key}")
    else pure ())
  let hasDocs ← pyContains manifest "data_source_and_docs"
  (if hasDocs then do
    let data_source_list ← pySubscript manifest "data_source_and_docs"
    match data_source_list with
    | .vlist l => manifestListLoop manifest_file "data_source_and_docs" ["title", "url"] 0 l
    | _ => throw (.valueError s!"Manifest file {manifest_file}: 'data_source_and_docs' should be a list.")
   else pure ())
  let asset_list ← pySubscript manifest "asset_list"
  match asset_list with
  | .vlist l =>
      manifestListLoop manifest_file "asset_list"
        ["asset_type", "name", "slug", "file", "config_required", "description"] 0 l
  | _ => throw (.valueError s!"Manifest file {manifest_file} 'asset_list' should be a list.")

/-- `check_manifest_file`: `next` over the touched files matching the
manifest path (taking the first match, `None` if there is none); with no
match, `ValueError`; otherwise the first match is validated. -/
def check_manifest_file (env : Env) (vendor_product : String) (files : List String) : Except Err Unit :=
  match files.find? (manifestMatch vendor_product) with
  | none => .error (.valueError s!"{vendor_product}: Missing manifest YAML file in the commit/PR.")
  | some manifest_file => validate_manifest_file env manifest_file

/-- `check_existing_asset_dirs`: the set of recognized asset kinds with at
least one touched file under `templates/<product>/<kind>/`; empty is an
error.  The Python set is modelled as a list in `ALL_ASSET_TYPES` order
(the order the source inserts in; set iteration order is otherwise
unobservable in the claims). -/
def check_existing_asset_dirs (vendor_product : String) (files : List String) : Except Err (List String) :=
  let existing_asset_dirs :=
    (ALL_ASSET_TYPES.map Prod.fst).filter
      (fun asset_type => files.any (fun f => strStartsWith f s!"templates/{vendor_product}/{asset_type}/"))
  if existing_asset_dirs.isEmpty then
    .error (.valueError (s!"templates/{vendor_product}: Must contain at least one asset directory: dashboards, monitors, " ++
      "notification-policies, collectors, parsers, processors."))
  else .ok existing_asset_dirs

/-- `check_asset_dir_dependencies`: monitors and notification-policies are
co-required. -/
def check_asset_dir_dependencies (vendor_product : String) (existing_asset_dirs : List String) : Except Err Unit :=
  let has_monitors := existing_asset_dirs.contains "monitors"
  let has_notification_policies := existing_asset_dirs.contains "notification-policies"
  if has_monitors && !has_notification_policies then
    .error (.valueError s!"{vendor_product}: The monitors directory requires a notification-policies directory to be present as well.")
  else if has_notification_policies && !has_monitors then
    .error (.valueError s!"{vendor_product}: The notification-policies directory requires a monitors directory to be present as well.")
  else .ok ()

-- File-level validation functions --------------------------------------------

/-- `validate_team_file`. -/
def validate_team_file (env : Env) (team_file : String) : Except Err Unit := do
  let data ← loadYaml env team_file
  check_structure data TEAM_EXPECTED_STRUCTURE team_file ""

/-- `validate_collection_file`. -/
def validate_collection_file (env : Env) (collection_file : String) : Except Err Unit := do
  let data ← loadYaml env collection_file
  check_structure data COLLECTION_EXPECTED_STRUCTURE collection_file ""

/-- `validate_dashboard_file`: structural check against
`DASHBOARD_EXPECTED_STRUCTURE`, then `spec.dashboard_json` is read and
— when it is a dict — accepted as-is, otherwise passed to `json.loads`,
any failure of which becomes the invalid-embedded-JSON `ValueError`
(`json.loads` of a non-string raises `TypeError`, equally caught). -/
def validate_dashboard_file (env : Env) (dashboard_file : String) : Except Err Unit := do
  let data ← loadYaml env dashboard_file
  check_structure data DASHBOARD_EXPECTED_STRUCTURE dashboard_file ""
  let spec ← pySubscript data "spec"
  let dashboard_json_str ← pySubscript spec "dashboard_json"
  match dashboard_json_str with
  | .vdict _ => .ok ()
  | .vstr s =>
      match env.jsonText s with
      | .ok _ => .ok ()
      | .error e =>
          throw (.valueError s!"{dashboard_file}: 'dashboard_json' contains invalid JSON: {e}")
  | v =>
      throw (.valueError (s!"{dashboard_file}: 'dashboard_json' contains invalid JSON: " ++
        s!"the JSON object must be str, bytes or bytearray, not {typeName v}"))

/-- `validate_monitor_file`. -/
def validate_monitor_file (env : Env) (monitor_file : String) : Except Err Unit := do
  let data ← loadYaml env monitor_file
  check_structure data MONITOR_EXPECTED_STRUCTURE monitor_file ""

/-- `validate_notif_policy_file`. -/
def validate_notif_policy_file (env : Env) (notif_policy_file : String) : Except Err Unit := do
  let data ← loadYaml env notif_policy_file
  check_structure data NOTIFICATION_POLICY_EXPECTED_STRUCTURE notif_policy_file ""

-- check_required_files_in_assets ----------------------------------------------

/-- The per-kind file-level validation loop inside
`check_required_files_in_assets`: for dashboards/monitors/notification-policies,
every correctly-extensioned matching file is validated and any exception is
caught and rendered as an invalid-file message; other kinds validate
nothing. -/
def kindValidationMessages (env : Env) (asset_type : String) (expected_extensions : List String) (matching_files : List String) : List String :=
  if asset_type == "dashboards" then
    matching_files.filterMap fun file =>
      if endsWithAny file expected_extensions then
        match validate_dashboard_file env file with
        | .ok _ => none
        | .error e => some s!"Validation failed for {file}: {e.str}"
      else none
  else if asset_type == "monitors" then
    matching_files.filterMap fun file =>
      if endsWithAny file expected_extensions then
        match validate_monitor_file env file with
        | .ok _ => none
        | .error e => some s!"Validation failed for {file}: {e.str}"
      else none
  else if asset_type == "notification-policies" then
    matching_files.filterMap fun file =>
      if endsWithAny file expected_extensions then
        match validate_notif_policy_file env file with
        | .ok _ => none
        | .error e => some s!"Validation failed for {file}: {e.str}"
      else none
  else []

/-- The accumulation loop of `check_required_files_in_assets`: for each
touched asset kind (in iteration order), collect a missing-asset message if
no touched file lies under its directory, and otherwise collect invalid-file
messages (wrong extension first, then caught validation failures).  Returns
the two lists `(missing_assets, invalid_files)`; an unrecognized kind models
Python's `KeyError` on `ALL_ASSET_TYPES[asset_type]`. -/
def requiredFilesLists (env : Env) (vendor_product : String) (files : List String) (existing_asset_dirs : List String) : Except Err (List String × List String) :=
  match existing_asset_dirs with
  | [] => .ok ([], [])
  | asset_type :: rest => do
      let expected_extensions ←
        match (ALL_ASSET_TYPES.lookup asset_type) with
        | some e => pure e
        | none => throw (.keyError asset_type)
      let matching_files := files.filter (fun f => strStartsWith f s!"templates/{vendor_product}/{asset_type}/")
      let (m0, i0) :=
        if matching_files.isEmpty then
          (["The " ++ asset_type ++ " directory is missing a file of type " ++ String.intercalate ", " expected_extensions ++ "."], [])
        else
          ([],
           (matching_files.filterMap fun file =>
              if !(endsWithAny file expected_extensions) then
                some (file ++ " is not a valid " ++ asset_type ++ " file (expected: " ++ String.intercalate ", " expected_extensions ++ ").")
              else none)
           ++ kindValidationMessages env asset_type expected_extensions matching_files)
      let (m, i) ← requiredFilesLists env vendor_product files rest
      pure (m0 ++ m, i0 ++ i)

/-- `check_required_files_in_assets`: accumulate the two message lists over
all touched asset kinds, then raise the missing-asset messages as one
failure if any, else the invalid-file messages as one failure if any. -/
def check_required_files_in_assets (env : Env) (vendor_product : String) (files : List String) (existing_asset_dirs : List String) : Except Err Unit := do
  let (missing_assets, invalid_files) ← requiredFilesLists env vendor_product files existing_asset_dirs
  if !missing_assets.isEmpty then
    throw (.valueError (s!"{vendor_product}: " ++ String.intercalate " " missing_assets))
  else if !invalid_files.isEmpty then
    throw (.valueError (s!"{vendor_product}: Invalid files found: " ++ String.intercalate " | " invalid_files))
  else pure ()

/-- `check_platform_asset_files`: when a platform asset kind is touched,
exactly one `*collection.yaml|yml` and exactly one `*team.yaml|yml` file
(under the product prefix) must be touched; the collection file is validated
first, then the team file. -/
def check_platform_asset_files (env : Env) (vendor_product : String) (files : List String) (existing_asset_dirs : List String) : Except Err Unit := do
  let has_platform_assets := PLATFORM_ASSET_TYPES.any (fun t => existing_asset_dirs.contains t)
  if has_platform_assets then
    let collection_files := files.filter
      (fun f => strStartsWith f s!"templates/{vendor_product}/" && collectionFileMatch f)
    if collection_files.length ≠ 1 then
      throw (.valueError s!"{vendor_product}: Expected 1 *collection YAML file, found {collection_files.length}.")
    else do
      (match collection_files.head? with
       | some collection_file => validate_collection_file env collection_file
       | none => pure ())
      let team_files := files.filter
        (fun f => strStartsWith f s!"templates/{vendor_product}/" && teamFileMatch f)
      if team_files.length ≠ 1 then
        throw (.valueError s!"{vendor_product}: Expected 1 *team YAML file, found {team_files.length}.")
      else
        match team_files.head? with
        | some team_file => validate_team_file env team_file
        | none => pure ()
  else pure ()

-- Cross-file validation functions ---------------------------------------------

/-- `get_team_slug_from_collection`: `next` over files matching the team
regex (uncaught `StopIteration` when none), load it and return
`team_yaml['spec']['slug']`. -/
def get_team_slug_from_collection (env : Env) (vendor_product : String) (files : List String) : Except Err Value := do
  let team_path ←
    match files.find? teamFileMatch with
    | some f => pure f
    | none => throw .stopIteration
  let team_yaml ← loadYaml env team_path
  let spec ← pySubscript team_yaml "spec"
  pySubscript spec "slug"

/-- `validate_team_slug_for_collection`: locate the collection file, compare
its `spec.team_slug` with the team slug (`SlugMismatch` `ValueError` naming
found and expected on difference) and return its `spec.slug`. -/
def validate_team_slug_for_collection (env : Env) (vendor_product : String) (files : List String) (team_slug : Value) : Except Err Value := do
  let collection_path ←
    match files.find? collectionFileMatch with
    | some f => pure f
    | none => throw .stopIteration
  let collection_yaml ← loadYaml env collection_path
  let spec ← pySubscript collection_yaml "spec"
  let collection_slug ← pySubscript spec "slug"
  let collection_team_slug ← pySubscript spec "team_slug"
  if !(Value.beq collection_team_slug team_slug) then
    throw (.valueError s!"{vendor_product}: collection.yaml 'team_slug' ({pyStr collection_team_slug}) does not match team.yaml 'slug' ({pyStr team_slug}).")
  else
    pure collection_slug

/-- The inner file loop of `validate_collection_slug_for_platform_assets`
for one asset type: every touched YAML-extension file whose path starts with
`templates/<product>/<asset_type>` (no trailing slash in the source) is
loaded and its `spec.collection_slug` compared. -/
def collectionSlugLoop (env : Env) (vendor_product asset_type : String) (collection_slug : Value) : List String → Except Err Unit
  | [] => .ok ()
  | asset_file :: rest => do
      (if yamlExt asset_file then
        if strStartsWith asset_file s!"templates/{vendor_product}/{asset_type}" then do
          let data ← loadYaml env asset_file
          let spec ← pySubscript data "spec"
          let asset_collection_slug ← pySubscript spec "collection_slug"
          if !(Value.beq asset_collection_slug collection_slug) then
            throw (.valueError s!"{vendor_product}: {asset_type.dropRight 1} '{asset_file}' has collection_slug '{pyStr asset_collection_slug}' but expected '{pyStr collection_slug}'.")
          else pure ()
        else pure ()
       else pure ())
      collectionSlugLoop env vendor_product asset_type collection_slug rest

/-- `validate_collection_slug_for_platform_assets`: the loop above for
`dashboards`, then for `monitors`. -/
def validate_collection_slug_for_platform_assets (env : Env) (vendor_product : String) (files : List String) (collection_slug : Value) : Except Err Unit := do
  collectionSlugLoop env vendor_product "dashboards" collection_slug files
  collectionSlugLoop env vendor_product "monitors" collection_slug files

/-- The file loop of `validate_team_slug_for_notif_policy`: every touched
YAML-extension file whose path starts with
`templates/<product>/notification-policies` (no trailing slash in the
source) is loaded and its `spec.team_slug` compared. -/
def notifPolicyLoop (env : Env) (vendor_product : String) (team_slug : Value) : List String → Except Err Unit
  | [] => .ok ()
  | notif_file :: rest => do
      (if yamlExt notif_file then
        if strStartsWith notif_file s!"templates/{vendor_product}/notification-policies" then do
          let data ← loadYaml env notif_file
          let notif_team_slug ← pySubscript (← pySubscript data "spec") "team_slug"
          if !(Value.beq notif_team_slug team_slug) then
            throw (.valueError s!"{vendor_product}: notification-policy '{notif_file}' has team_slug '{pyStr notif_team_slug}' but expected '{pyStr team_slug}'.")
          else pure ()
        else pure ()
       else pure ())
      notifPolicyLoop env vendor_product team_slug rest

/-- `validate_team_slug_for_notif_policy`. -/
def validate_team_slug_for_notif_policy (env : Env) (vendor_product : String) (files : List String) (team_slug : Value) : Except Err Unit :=
  notifPolicyLoop env vendor_product team_slug files

-- Orchestration ----------------------------------------------------------------

/-- `validate_vendor_product_dir`: the sequential directory-level checks for
one product, returning the touched asset kinds for the cross-file stage. -/
def validate_vendor_product_dir (env : Env) (vendor_product : String) (files : List String) : Except Err (List String) := do
  validate_files_parseable env vendor_product files
  check_readme_file vendor_product files
  check_manifest_file env vendor_product files
  let existing_asset_dirs ← check_existing_asset_dirs vendor_product files
  check_asset_dir_dependencies vendor_product existing_asset_dirs
  check_required_files_in_assets env vendor_product files existing_asset_dirs
  check_platform_asset_files env vendor_product files existing_asset_dirs
  pure existing_asset_dirs

/-- `validate_cross_file_references`: runs only when a platform asset kind
was touched; extracts the team slug, validates the collection's team slug
(yielding the collection slug), then checks dashboards/monitors and
notification policies. -/
def validate_cross_file_references (env : Env) (vendor_product : String) (files : List String) (existing_asset_dirs : List String) : Except Err Unit := do
  if existing_asset_dirs.any (fun t => PLATFORM_ASSET_TYPES.contains t) then
    let team_slug ← get_team_slug_from_collection env vendor_product files
    let collection_slug ← validate_team_slug_for_collection env vendor_product files team_slug
    validate_collection_slug_for_platform_assets env vendor_product files collection_slug
    validate_team_slug_for_notif_policy env vendor_product files team_slug
  else pure ()

/-- One product's full validation, as driven by `main`'s loop body. -/
def validate_product (env : Env) (vendor_product : String) (files : List String) : Except Err Unit := do
  let existing_asset_dirs ← validate_vendor_product_dir env vendor_product files
  validate_cross_file_references env vendor_product files existing_asset_dirs

/-- Append a file to its product group, preserving first-encounter group
order (Python's insertion-ordered `defaultdict(list)`). -/
def addToGroup (groups : List (String × List String)) (vendor_product file : String) : List (String × List String) :=
  match groups with
  | [] => [(vendor_product, [file])]
  | (vp, fs) :: rest =>
      if vp = vendor_product then (vp, fs ++ [file]) :: rest
      else (vp, fs) :: addToGroup rest vendor_product file

/-- Split a character list on a separator character (Python
`str.split("/")`, which keeps empty segments). -/
def splitOnChar (sep : Char) (l : List Char) : List (List Char) :=
  match l with
  | [] => [[]]
  | c :: rest =>
      let r := splitOnChar sep rest
      if c = sep then [] :: r
      else
        match r with
        | [] => [[c]]
        | seg :: segs => (c :: seg) :: segs

/-- `changed_file.split("/")`. -/
def pathSegments (f : String) : List String :=
  (splitOnChar (Char.ofNat 47) f.data).map List.asString

/-- Step 2 of `main`: group the changed files by vendor-product; only paths
starting with `templates/` and having at least three `/`-separated segments
qualify, the second segment being the product key. -/
def group_changed_files (changed_files : List String) : List (String × List String) :=
  changed_files.foldl
    (fun changed_by_dir changed_file =>
      if strStartsWith changed_file "templates/" then
        match pathSegments changed_file with
        | _ :: vendor_product :: _ :: _ => addToGroup changed_by_dir vendor_product changed_file
        | _ => changed_by_dir
      else changed_by_dir)
    []

/-- Step 3 of `main`: validate each product group in input order; the first
failure aborts the run. -/
def run_validation (env : Env) (changed_files : List String) : Except Err Unit :=
  (group_changed_files changed_files).forM (fun g => validate_product env g.1 g.2)

-- Claim-support definitions ----------------------------------------------------

/-- Build an environment from a finite table of YAML file parse results, a
finite table of JSON file parse results and a finite table of parseable JSON
text strings; everything else fails to parse. -/
def mkEnv (yamlTbl jsonTbl : List (String × Value)) (jsonTexts : List (String × Value)) : Env :=
  { yamlFile := fun p => yamlTbl.lookup p
    jsonFile := fun p => jsonTbl.lookup p
    jsonText := fun s =>
      match jsonTexts.lookup s with
      | some v => .ok v
      | none => .error "Expecting value: line 1 column 1 (char 0)" }

/-- An environment in which no file parses. -/
def envEmpty : Env := mkEnv [] [] []

/-- A conforming team document with slug `t1`. -/
def teamDoc : Value := Value.dictOf
  [("api_version", .vstr "v1/config"), ("kind", .vstr "Team"),
   ("spec", Value.dictOf [("slug", .vstr "t1"), ("name", .vstr "T")])]

/-- A conforming collection document with slug `c1` owned by team `t1`. -/
def collectionDoc : Value := Value.dictOf
  [("api_version", .vstr "v1/config"), ("kind", .vstr "Collection"),
   ("spec", Value.dictOf [("slug", .vstr "c1"), ("name", .vstr "C"), ("team_slug", .vstr "t1")])]

/-- A conforming dashboard document in collection `c1` whose
`dashboard_json` is the JSON text `"\x7b\x7d"`. -/
def dashDoc : Value := Value.dictOf
  [("api_version", .vstr "v1/config"), ("kind", .vstr "Dashboard"),
   ("spec", Value.dictOf [("slug", .vstr "d1"), ("name", .vstr "D1"),
     ("collection_slug", .vstr "c1"), ("dashboard_json", .vstr "\x7b\x7d")])]

/-- A conforming monitor document in collection `c1`. -/
def monDoc : Value := Value.dictOf
  [("api_version", .vstr "v1/config"), ("kind", .vstr "Monitor"),
   ("spec", Value.dictOf [("slug", .vstr "m1"), ("name", .vstr "M1"),
     ("collection_slug", .vstr "c1"), ("notification_policy_slug", .vstr "n1"),
     ("prometheus_query", .vstr "up")])]

/-- A conforming notification-policy document owned by team `t1`. -/
def notifDoc : Value := Value.dictOf
  [("api_version", .vstr "v1/config"), ("kind", .vstr "NotificationPolicy"),
   ("spec", Value.dictOf [("slug", .vstr "n1"), ("name", .vstr "N1"), ("team_slug", .vstr "t1"),
     ("routes", Value.dictOf [("defaults", Value.dictOf [])])])]

/-- A manifest document with the two required top-level keys. -/
def manifestDoc : Value := Value.dictOf
  [("tech_type", .vstr "x"), ("asset_list", Value.listOf [])]

-- Conformance, key paths, insertion and removal (Structural Matcher claims) ----

/-- Whether a dictionary level of a shape requires the given key. -/
def fieldsHasKey : ExpectedFields → String → Bool
  | .nil, _ => false
  | .cons k _ rest, key => k == key || fieldsHasKey rest key

/-- First-match access to a shape's entry for a key. -/
def fieldsGet : ExpectedFields → String → Option Expected
  | .nil, _ => none
  | .cons k e rest, key => if k = key then some e else fieldsGet rest key

mutual

/-- Semantic satisfaction of an expected structure by a document value: the
value a shape's key maps to is conforming when it equals the literal (a
`None` literal checks nothing), has the marked type, or is a dictionary
recursively conforming to the nested shape.  Keys of the document not named
in the shape are unconstrained. -/
def conforms : Expected → Value → Bool
  | .lit .vnull, _ => true
  | .lit lv, v => Value.beq v lv
  | .ty t, v => pyIsInstance t v
  | .nested ns, v =>
      match v with
      | .vdict d => conformsFields ns d
      | _ => false

/-- A document dictionary satisfies a shape level when every required key is
present (first occurrence) with a conforming value. -/
def conformsFields : ExpectedFields → ValueFields → Bool
  | .nil, _ => true
  | .cons k e rest, d =>
      (match dictGet d k with
       | some v => conforms e v
       | none => false) && conformsFields rest d

end

mutual

/-- Well-formedness of a shape as the image of an actual Python expected
structure without list templates: literal values are scalars (a Python dict
value would be a nested shape and a Python list value a list template), and
each level's keys are distinct (Python dict keys are unique). -/
def Expected.wf : Expected → Bool
  | .lit (.vdict _) => false
  | .lit (.vlist _) => false
  | .lit _ => true
  | .ty _ => true
  | .nested ns => ExpectedFields.wf ns

/-- Well-formedness of one level: distinct keys, well-formed entries. -/
def ExpectedFields.wf : ExpectedFields → Bool
  | .nil => true
  | .cons k e rest => !(fieldsHasKey rest k) && Expected.wf e && ExpectedFields.wf rest

end

/-- Whether a shape requires the (non-empty) dotted key path: each step but
the last must be a nested shape. -/
def shapeHasPath (fs : ExpectedFields) : List String → Bool
  | [] => false
  | k :: rest =>
      if rest.isEmpty then fieldsHasKey fs k
      else
        match fieldsGet fs k with
        | some (.nested ns) => shapeHasPath ns rest
        | _ => false

/-- The dotted rendering of a key path (`spec.slug`). -/
def dottedPath : List String → String
  | [] => ""
  | [k] => k
  | k :: rest => k ++ "." ++ dottedPath rest

/-- Append one entry at the end of a dictionary level. -/
def appendField (d : ValueFields) (k : String) (v : Value) : ValueFields :=
  match d with
  | .nil => .cons k v .nil
  | .cons k' v' rest => .cons k' v' (appendField rest k v)

/-- Rewrite the dictionary value of every entry with the given key by `g`
(entries holding non-dictionary values are left unchanged). -/
def mapDictAt (k : String) (g : ValueFields → ValueFields) : ValueFields → ValueFields
  | .nil => .nil
  | .cons k' v rest =>
      if k' = k then
        .cons k' (match v with | .vdict dd => .vdict (g dd) | other => other) (mapDictAt k g rest)
      else .cons k' v (mapDictAt k g rest)

/-- Insert an extra entry `k ↦ v` at the end of the dictionary reached by
descending the key path `p` (a no-op wherever the path is absent). -/
def insertAt : List String → String → Value → ValueFields → ValueFields
  | [], k, v, d => appendField d k v
  | k0 :: rest, k, v, d => mapDictAt k0 (insertAt rest k v) d

/-- Remove every entry with the given key at one dictionary level. -/
def removeTop (k : String) : ValueFields → ValueFields
  | .nil => .nil
  | .cons k' v rest => if k' = k then removeTop k rest else .cons k' v (removeTop k rest)

/-- Remove the entries with the final key of the (non-empty) path from the
dictionary reached by descending the earlier path steps. -/
def removePath : List String → ValueFields → ValueFields
  | [], d => d
  | [k], d => removeTop k d
  | k0 :: rest, d => mapDictAt k0 (removePath rest) d

-- Concrete scenarios referenced by the claims ----------------------------------

/-- A fully conforming dashboard document except for the given
`dashboard_json` value. -/
def dashDocWith (dj : Value) : Value :=
  Value.dictOf [("api_version", .vstr "v1/config"), ("kind", .vstr "Dashboard"),
          ("spec", Value.dictOf [("slug", .vstr "d1"), ("name", .vstr "D1"),
                           ("collection_slug", .vstr "c1"), ("dashboard_json", dj)])]

/-- Environment holding three dashboard files: one whose `dashboard_json` is
an inline mapping, one a string of valid JSON, one a string of malformed
JSON (only the text `"\x7b\x7d"` parses as JSON). -/
def envC1 : Env :=
  mkEnv
    [("templates/p/dashboards/d_map.yaml", dashDocWith (Value.dictOf [])),
     ("templates/p/dashboards/d_ok.yaml", dashDocWith (.vstr "\x7b\x7d")),
     ("templates/p/dashboards/d_bad.yaml", dashDocWith (.vstr "\x7binvalid"))]
    []
    [("\x7b\x7d", Value.dictOf [])]

/-- Environment with a team file of slug `teamA` and a collection file whose
`team_slug` is `teamB` (and own slug `c1`). -/
def envC2 : Env := mkEnv
  [("templates/p/team.yaml", Value.dictOf
     [("api_version", .vstr "v1/config"), ("kind", .vstr "Team"),
      ("spec", Value.dictOf [("slug", .vstr "teamA"), ("name", .vstr "T")])]),
   ("templates/p/collection.yaml", Value.dictOf
     [("api_version", .vstr "v1/config"), ("kind", .vstr "Collection"),
      ("spec", Value.dictOf [("slug", .vstr "c1"), ("name", .vstr "C"), ("team_slug", .vstr "teamB")])])]
  [] []

/-- The two files of the `envC2` scenario. -/
def filesC2 : List String := ["templates/p/team.yaml", "templates/p/collection.yaml"]

/-- Environment with a conforming dashboard under `dashboards/` and a second
dashboard-shaped file with `collection_slug: evil` under the directory
`dashboardsx/`, which is not an asset directory. -/
def envC3 : Env := mkEnv
  [("templates/p/dashboards/d1.yaml", dashDoc),
   ("templates/p/dashboardsx/a.yaml", Value.dictOf
     [("api_version", .vstr "v1/config"), ("kind", .vstr "Dashboard"),
      ("spec", Value.dictOf [("slug", .vstr "d2"), ("name", .vstr "D2"),
        ("collection_slug", .vstr "evil"), ("dashboard_json", .vstr "\x7b\x7d")])])]
  [] [("\x7b\x7d", Value.dictOf [])]

/-- The touched files of the `envC3` scenario. -/
def filesC3 : List String := ["templates/p/dashboards/d1.yaml", "templates/p/dashboardsx/a.yaml"]

/-- Environment holding two manifest files, both well-formed. -/
def envC4 : Env := mkEnv
  [("templates/p/manifest.yaml", manifestDoc), ("templates/p/manifest.yml", manifestDoc)] [] []

/-- Both manifest spellings touched at once. -/
def filesC4 : List String := ["templates/p/manifest.yaml", "templates/p/manifest.yml"]

/-- A manifest file missing `tech_type`. -/
def envC4b : Env := mkEnv
  [("templates/q/manifest.yaml", Value.dictOf [("asset_list", Value.listOf [])])] [] []

/-- A complete, conforming product — plus one extra YAML file under the
non-asset directory `dashboardsx/` whose document is the empty mapping. -/
def envC9 : Env := mkEnv
  [("templates/p/manifest.yaml", manifestDoc),
   ("templates/p/team.yaml", teamDoc),
   ("templates/p/collection.yaml", collectionDoc),
   ("templates/p/dashboards/d1.yaml", dashDoc),
   ("templates/p/dashboardsx/evil.yaml", Value.dictOf []),
   ("templates/p/monitors/m1.yaml", monDoc),
   ("templates/p/notification-policies/n1.yaml", notifDoc)]
  []
  [("\x7b\x7d", Value.dictOf [])]

/-- The touched files of the `envC9` scenario. -/
def filesC9 : List String :=
  ["templates/p/README.md", "templates/p/manifest.yaml", "templates/p/team.yaml",
   "templates/p/collection.yaml", "templates/p/dashboards/d1.yaml",
   "templates/p/dashboardsx/evil.yaml", "templates/p/monitors/m1.yaml",
   "templates/p/notification-policies/n1.yaml"]

/-- Decidable equality of validation results. -/
instance {ε α : Type} [DecidableEq ε] [DecidableEq α] : DecidableEq (Except ε α) :=
  fun x y =>
    match x, y with
    | .ok a, .ok b =>
        if h : a = b then isTrue (by rw [h]) else isFalse (by simp [h])
    | .error e, .error e' =>
        if h : e = e' then isTrue (by rw [h]) else isFalse (by simp [h])
    | .ok _, .error _ => isFalse (by simp)
    | .error _, .ok _ => isFalse (by simp)

/-- The on-disk directory prefix of one asset kind of one product. -/
def assetPrefix (vp asset_type : String) : String :=
  "templates/" ++ vp ++ "/" ++ asset_type ++ "/"

/-- A small well-formed shape used to exercise the Structural Matcher
claims: a required string `a` and a nested dict `b` with required string
`c`. -/
def shapeC7 : ExpectedFields := ExpectedFields.ofList
  [("a", .ty .str), ("b", .nested (ExpectedFields.ofList [("c", .ty .str)]))]

/-- A document conforming to `shapeC7` with extra keys at both levels. -/
def docC7 : ValueFields := ValueFields.ofList
  [("x", .vint 1), ("a", .vstr "u"),
   ("b", Value.dictOf [("z", .vnull), ("c", .vstr "w")])]

/-- The YAML parse table of one complete conforming product. -/
def yamlTblC10 : List (String × Value) :=
  [("templates/p/manifest.yaml", manifestDoc),
   ("templates/p/team.yaml", teamDoc),
   ("templates/p/collection.yaml", collectionDoc),
   ("templates/p/dashboards/d1.yaml", dashDoc),
   ("templates/p/monitors/m1.yaml", monDoc),
   ("templates/p/notification-policies/n1.yaml", notifDoc)]

/-- The touched files of the complete product, including a `.conf` parser
file. -/
def filesC10 : List String :=
  ["templates/p/README.md", "templates/p/manifest.yaml", "templates/p/team.yaml",
   "templates/p/collection.yaml", "templates/p/dashboards/d1.yaml",
   "templates/p/monitors/m1.yaml", "templates/p/notification-policies/n1.yaml",
   "templates/p/parsers/x.conf"]

/-- First run's environment: the `.conf` file has no parse entry at all. -/
def envC10a : Env := mkEnv yamlTblC10 [] [("{}", Value.dictOf [])]

/-- Second run's environment: identical except that the `.conf` path maps to
a (never consulted) YAML parse result. -/
def envC10b : Env :=
  mkEnv (("templates/p/parsers/x.conf", .vnull) :: yamlTblC10) [] [("{}", Value.dictOf [])]

-- Evaluation lemmas for the Except monad ----------------------------------------

/-- Bind on a success evaluates the continuation. -/
@[simp] theorem ok_bind {ε α β : Type} (a : α) (f : α → Except ε β) :
    (Except.ok a >>= f) = f a := rfl

/-- Bind on an error short-circuits. -/
@[simp] theorem error_bind {ε α β : Type} (e : ε) (f : α → Except ε β) :
    (Except.error e >>= f : Except ε β) = Except.error e := rfl

/-- `throw` is `Except.error`. -/
@[simp] theorem throw_eq {ε α : Type} (e : ε) : (throw e : Except ε α) = Except.error e := rfl

/-- `pure` is `Except.ok`. -/
@[simp] theorem pure_eq {ε α : Type} (a : α) : (pure a : Except ε α) = Except.ok a := rfl

/-- `toString` of a string is itself (interpolation plumbing). -/
@[simp] theorem toString_string (s : String) : toString s = s := rfl

/-- A bind is a success exactly when both stages succeed. -/
theorem bind_eq_ok {ε α β : Type} {x : Except ε α} {f : α → Except ε β} {b : β} :
    (x >>= f) = .ok b ↔ ∃ a, x = .ok a ∧ f a = .ok b := by
  cases x <;> simp

-- C1 ----------------------------------------------------------------------------

/-- C1 (code bug): the spec says `spec.dashboard_json` is accepted as-is
when it is an inline mapping, and the source's `validate_dashboard_file`
indeed has a branch accepting a dict — but `DASHBOARD_EXPECTED_STRUCTURE`
types `dashboard_json` as `str`, so a dashboard whose `dashboard_json` is an
inline mapping (otherwise fully conforming) is rejected by the Structural
Matcher with a type error and never reaches that branch, which is dead
code.  The string cases behave as claimed: a string of valid JSON is
accepted; a string of malformed JSON fails with the invalid-embedded-JSON
error naming the file. -/
theorem C1_dashboard_json_inline_mapping_rejected :
    validate_dashboard_file envC1 "templates/p/dashboards/d_map.yaml" =
      .error (.valueError "templates/p/dashboards/d_map.yaml: 'spec.dashboard_json' should be of type 'str', found 'dict'.")
    ∧ validate_dashboard_file envC1 "templates/p/dashboards/d_ok.yaml" = .ok ()
    ∧ validate_dashboard_file envC1 "templates/p/dashboards/d_bad.yaml" =
      .error (.valueError "templates/p/dashboards/d_bad.yaml: 'dashboard_json' contains invalid JSON: Expecting value: line 1 column 1 (char 0)") :=
  ⟨rfl, rfl, rfl⟩

-- C2 ----------------------------------------------------------------------------

/-- C2: during cross-file validation the collection file's `spec.team_slug`
is compared against the team file's `spec.slug` (the `team_slug` argument,
produced by `get_team_slug_from_collection`); on difference validation fails
with the slug-mismatch error reporting the found and expected values, and on
equality the collection's `spec.slug` is returned as the collection slug. -/
theorem C2_collection_team_slug_cross_check
    (env : Env) (vp : String) (files : List String) (cpath : String)
    (d s : ValueFields) (cs cts ts : Value)
    (hfind : files.find? collectionFileMatch = some cpath)
    (hload : env.yamlFile cpath = some (.vdict d))
    (hspec : dictGet d "spec" = some (.vdict s))
    (hcs : dictGet s "slug" = some cs)
    (hcts : dictGet s "team_slug" = some cts)
    (hteam : get_team_slug_from_collection env vp files = .ok ts) :
    (Value.beq cts ts = false →
      validate_team_slug_for_collection env vp files ts =
        .error (.valueError s!"{vp}: collection.yaml 'team_slug' ({pyStr cts}) does not match team.yaml 'slug' ({pyStr ts})."))
    ∧ (Value.beq cts ts = true →
      validate_team_slug_for_collection env vp files ts = .ok cs) := by
  constructor <;> intro hbeq <;>
    simp [validate_team_slug_for_collection, hfind, loadYaml, hload, pySubscript, hspec,
          hcs, hcts, hbeq]

/-- Witness for C2 at the spec's own example: team slug `teamA`, collection
`team_slug` `teamB`. -/
theorem C2_collection_team_slug_cross_check_witness :
    Value.beq (.vstr "teamB") (.vstr "teamA") = false
    ∧ validate_team_slug_for_collection envC2 "p" filesC2 (.vstr "teamA") =
      .error (.valueError "p: collection.yaml 'team_slug' (teamB) does not match team.yaml 'slug' (teamA).") :=
  ⟨rfl,
   (C2_collection_team_slug_cross_check envC2 "p" filesC2 "templates/p/collection.yaml"
      (ValueFields.ofList
        [("api_version", .vstr "v1/config"), ("kind", .vstr "Collection"),
         ("spec", Value.dictOf [("slug", .vstr "c1"), ("name", .vstr "C"), ("team_slug", .vstr "teamB")])])
      (ValueFields.ofList [("slug", .vstr "c1"), ("name", .vstr "C"), ("team_slug", .vstr "teamB")])
      (.vstr "c1") (.vstr "teamB") (.vstr "teamA")
      rfl rfl rfl rfl rfl rfl).1 rfl⟩

-- C4 ----------------------------------------------------------------------------

/-- C4 counterexample: with both `manifest.yaml` and `manifest.yml` touched
(count 2, not exactly one) the manifest check does not fail with a
missing-file error — it silently validates the first match and succeeds. -/
theorem C4_counterexample_two_manifests_accepted :
    (filesC4.filter (manifestMatch "p")).length = 2
    ∧ check_manifest_file envC4 "p" filesC4 = .ok () :=
  ⟨rfl, rfl⟩

/-- C4 amended: the manifest check fails with the missing-file error exactly
when no touched file equals `templates/<product>/manifest.yml|yaml`; when at
least one matches, the first match (in input order) is validated — in
particular a loaded manifest lacking `tech_type` fails with the
missing-required-key error. -/
theorem C4_manifest_first_match_validated
    (env : Env) (vp : String) (files : List String) :
    (files.find? (manifestMatch vp) = none →
      check_manifest_file env vp files =
        .error (.valueError s!"{vp}: Missing manifest YAML file in the commit/PR."))
    ∧ (∀ mf, files.find? (manifestMatch vp) = some mf →
      check_manifest_file env vp files = validate_manifest_file env mf)
    ∧ (∀ mf d, files.find? (manifestMatch vp) = some mf →
      env.yamlFile mf = some (.vdict d) → dictGet d "tech_type" = none →
      check_manifest_file env vp files =
        .error (.valueError s!"Manifest file {mf} is missing required key: tech_type")) := by
  refine ⟨fun h => ?_, fun mf h => ?_, fun mf d h hload hkey => ?_⟩
  · simp [check_manifest_file, h]
  · simp [check_manifest_file, h]
  · simp [check_manifest_file, h, validate_manifest_file, loadYaml, hload, List.forM,
          pyContains, hkey, String.append_assoc, String.append_empty]

/-- Witness for C4 at a manifest lacking `tech_type`. -/
theorem C4_manifest_first_match_validated_witness :
    check_manifest_file envC4b "q" ["templates/q/manifest.yaml"] =
      .error (.valueError "Manifest file templates/q/manifest.yaml is missing required key: tech_type") :=
  (C4_manifest_first_match_validated envC4b "q" ["templates/q/manifest.yaml"]).2.2
    "templates/q/manifest.yaml" (ValueFields.ofList [("asset_list", Value.listOf [])])
    rfl rfl rfl

-- C5 ----------------------------------------------------------------------------

/-- C5 counterexample: with one touched asset kind lacking files entirely
(`collectors`) and another holding an invalid file (`parsers` with a `.txt`),
both message lists are non-empty, yet the raised failure carries only the
missing-asset messages — the invalid-file message is not reported together
with it. -/
theorem C5_counterexample_missing_reported_without_invalid :
    requiredFilesLists envEmpty "p" ["templates/p/parsers/x.txt"] ["collectors", "parsers"] =
      .ok (["The collectors directory is missing a file of type .yaml, .yml."],
           ["templates/p/parsers/x.txt is not a valid parsers file (expected: .conf)."])
    ∧ check_required_files_in_assets envEmpty "p" ["templates/p/parsers/x.txt"] ["collectors", "parsers"] =
      .error (.valueError "p: The collectors directory is missing a file of type .yaml, .yml.") :=
  ⟨rfl, rfl⟩

/-- C5 amended: the per-asset-directory requirements check accumulates the
two message lists across all touched asset kinds, then raises the
missing-asset messages as one aggregated failure when that list is
non-empty; only when it is empty are the invalid-file messages raised as one
aggregated failure; with both lists empty it succeeds.  (When both lists are
non-empty, the single raised failure carries only the missing-asset
messages.) -/
theorem C5_two_stage_aggregation
    (env : Env) (vp : String) (files existing_asset_dirs : List String)
    (m i : List String)
    (h : requiredFilesLists env vp files existing_asset_dirs = .ok (m, i)) :
    (m ≠ [] → check_required_files_in_assets env vp files existing_asset_dirs =
      .error (.valueError (s!"{vp}: " ++ String.intercalate " " m)))
    ∧ (m = [] → i ≠ [] → check_required_files_in_assets env vp files existing_asset_dirs =
      .error (.valueError (s!"{vp}: Invalid files found: " ++ String.intercalate " | " i)))
    ∧ (m = [] → i = [] → check_required_files_in_assets env vp files existing_asset_dirs = .ok ()) := by
  refine ⟨fun hm => ?_, fun hm hi => ?_, fun hm hi => ?_⟩ <;>
    simp [check_required_files_in_assets, h] <;>
    cases m <;> cases i <;> simp_all

/-- Witness for C5: the aggregated invalid-file failure of a kind whose
files all carry wrong extensions. -/
theorem C5_two_stage_aggregation_witness :
    check_required_files_in_assets envEmpty "p" ["templates/p/parsers/x.txt"] ["parsers"] =
      .error (.valueError "p: Invalid files found: templates/p/parsers/x.txt is not a valid parsers file (expected: .conf).") :=
  (C5_two_stage_aggregation envEmpty "p" ["templates/p/parsers/x.txt"] ["parsers"]
    [] ["templates/p/parsers/x.txt is not a valid parsers file (expected: .conf)."] rfl).2.1
    rfl (by simp)

-- C6 ----------------------------------------------------------------------------

/-- A list with no occurrence of `r` has no member `== r`. -/
theorem any_beq_eq_false {r : String} :
    ∀ {files : List String}, ¬ r ∈ files → files.any (fun f => f == r) = false := by
  intro files h
  induction files with
  | nil => rfl
  | cons f rest ih =>
      simp only [List.any_cons, Bool.or_eq_false_iff]
      constructor
      · simp only [beq_eq_false_iff_ne, ne_eq]
        intro hf; exact h (hf ▸ List.mem_cons_self f rest)
      · exact ih (fun hr => h (List.mem_cons_of_mem f hr))

/-- C6 counterexample: a product whose only touched file is an unparseable
YAML file and whose touched files do not include the README fails with the
parse error naming that file — not with the missing-README error — because
the parseability check runs first and reads file content. -/
theorem C6_counterexample_parse_error_preempts_readme :
    ¬ ("templates/p/README.md" ∈ ["templates/p/a.yaml"])
    ∧ validate_vendor_product_dir envEmpty "p" ["templates/p/a.yaml"] =
      .error (.valueError "p: The YAML file 'templates/p/a.yaml' could not be parsed.")
    ∧ validate_vendor_product_dir envEmpty "p" ["templates/p/a.yaml"] ≠
      .error (.valueError "p: Missing README.md in the commit/PR.") :=
  ⟨by decide, rfl, by decide⟩

/-- C6 amended: for every product group whose touched YAML/JSON files all
parse and whose touched files do not include the exact path
`templates/<product>/README.md`, directory-level validation fails with the
missing-README error, regardless of the parsed content of the other files. -/
theorem C6_readme_error_when_parseable
    (env : Env) (vp : String) (files : List String)
    (hparse : validate_files_parseable env vp files = .ok ())
    (hreadme : ¬ (s!"templates/{vp}/README.md" ∈ files)) :
    validate_vendor_product_dir env vp files =
      .error (.valueError s!"{vp}: Missing README.md in the commit/PR.") := by
  have hany : files.any (fun f => f == ("templates/" ++ vp ++ "/README.md")) = false :=
    any_beq_eq_false hreadme
  simp only [validate_vendor_product_dir, hparse, ok_bind, check_readme_file, toString_string,
    hany, Bool.not_false, reduceIte, error_bind]

/-- Witness for C6: one parseable monitor file, no README. -/
theorem C6_readme_error_when_parseable_witness :
    validate_vendor_product_dir (mkEnv [("templates/p/monitors/m1.yaml", monDoc)] [] []) "p"
      ["templates/p/monitors/m1.yaml"] =
      .error (.valueError "p: Missing README.md in the commit/PR.") :=
  C6_readme_error_when_parseable (mkEnv [("templates/p/monitors/m1.yaml", monDoc)] [] []) "p"
    ["templates/p/monitors/m1.yaml"] rfl (by decide)

-- C8 ----------------------------------------------------------------------------

/-- Unfolding of the existing-asset-dirs computation on success. -/
theorem check_existing_asset_dirs_ok
    {vp : String} {files : List String} {dirs : List String}
    (h : check_existing_asset_dirs vp files = .ok dirs) :
    dirs = (ALL_ASSET_TYPES.map Prod.fst).filter
      (fun asset_type => files.any (fun f => strStartsWith f ("templates/" ++ vp ++ "/" ++ asset_type ++ "/"))) := by
  cases hE : ((ALL_ASSET_TYPES.map Prod.fst).filter
      (fun asset_type => files.any (fun f =>
        strStartsWith f ("templates/" ++ vp ++ "/" ++ asset_type ++ "/")))).isEmpty with
  | true => simp [check_existing_asset_dirs, hE] at h
  | false =>
      simp [check_existing_asset_dirs, hE] at h
      exact h.symm

/-- Every recognized asset-type name has an extension entry. -/
theorem lookup_isSome_of_mem_asset_types :
    ∀ a ∈ ALL_ASSET_TYPES.map Prod.fst, (ALL_ASSET_TYPES.lookup a).isSome := by
  intro a ha
  fin_cases ha <;> rfl

/-- The accumulation loop produces no missing-asset message for kinds that
have at least one touched file under their directory. -/
theorem requiredFilesLists_no_missing (env : Env) (vp : String) (files : List String) :
    ∀ (dirs : List String),
      (∀ a ∈ dirs, a ∈ ALL_ASSET_TYPES.map Prod.fst ∧
        files.any (fun f => strStartsWith f ("templates/" ++ vp ++ "/" ++ a ++ "/")) = true) →
      ∃ i, requiredFilesLists env vp files dirs = .ok ([], i) := by
  intro dirs
  induction dirs with
  | nil => exact fun _ => ⟨[], rfl⟩
  | cons a rest ih =>
      intro h
      obtain ⟨hmem, hany⟩ := h a (List.mem_cons_self a rest)
      obtain ⟨exts, hexts⟩ :=
        Option.isSome_iff_exists.mp (lookup_isSome_of_mem_asset_types a hmem)
      obtain ⟨i', hrest⟩ := ih (fun b hb => h b (List.mem_cons_of_mem a hb))
      obtain ⟨f, hf, hp⟩ := List.any_eq_true.mp hany
      have hne : files.filter
          (fun f => strStartsWith f ("templates/" ++ vp ++ "/" ++ a ++ "/")) ≠ [] :=
        List.ne_nil_of_mem (List.mem_filter.mpr ⟨hf, hp⟩)
      cases hfilter : files.filter
          (fun f => strStartsWith f ("templates/" ++ vp ++ "/" ++ a ++ "/")) with
      | nil => exact absurd hfilter hne
      | cons x xs =>
          refine ⟨(x :: xs).filterMap (fun file =>
              if !(endsWithAny file exts) then
                some (file ++ " is not a valid " ++ a ++ " file (expected: " ++ String.intercalate ", " exts ++ ").")
              else none) ++ kindValidationMessages env a exts (x :: xs) ++ i', ?_⟩
          simp [requiredFilesLists, hexts, toString_string, hfilter, hrest]

/-- C8: every asset kind placed in the existing-asset-directories set has at
least one touched file under `templates/<product>/<kind>/` (the set is
derived from exactly that condition), so the missing-assets list of the
per-asset-directory requirements check is always empty — the
missing-assets branch is unreachable for every input that reaches it
through the pipeline. -/
theorem C8_missing_assets_branch_unreachable
    (vp : String) (files : List String) (dirs : List String)
    (h : check_existing_asset_dirs vp files = .ok dirs) :
    (∀ a ∈ dirs, files.any
      (fun f => strStartsWith f ("templates/" ++ vp ++ "/" ++ a ++ "/")) = true)
    ∧ ∀ env : Env, ∃ i, requiredFilesLists env vp files dirs = .ok ([], i) := by
  have hd := check_existing_asset_dirs_ok h
  subst hd
  constructor
  · intro a ha
    exact (List.mem_filter.mp ha).2
  · intro env
    refine requiredFilesLists_no_missing env vp files _ (fun a ha => ?_)
    exact ⟨(List.mem_filter.mp ha).1, (List.mem_filter.mp ha).2⟩

/-- Witness for C8 at the complete product scenario. -/
theorem C8_missing_assets_branch_unreachable_witness :
    ∃ i, requiredFilesLists envC9 "p" filesC9 ["dashboards", "monitors", "notification-policies"] =
      .ok ([], i) :=
  (C8_missing_assets_branch_unreachable "p" filesC9
    ["dashboards", "monitors", "notification-policies"] rfl).2 envC9

-- C3 ----------------------------------------------------------------------------

/-- C3 counterexample: the collection-slug check loads and rejects a file
that does not lie under `dashboards/` or `monitors/` — its prefix match has
no trailing separator, so `templates/p/dashboardsx/a.yaml` is also checked,
and the run fails on it even though every file actually under the two asset
directories carries the right slug. -/
theorem C3_counterexample_checks_file_outside_asset_dirs :
    strStartsWith "templates/p/dashboardsx/a.yaml" "templates/p/dashboards/" = false
    ∧ strStartsWith "templates/p/dashboardsx/a.yaml" "templates/p/monitors/" = false
    ∧ validate_collection_slug_for_platform_assets envC3 "p" filesC3 (.vstr "c1") =
      .error (.valueError "p: dashboard 'templates/p/dashboardsx/a.yaml' has collection_slug 'evil' but expected 'c1'.") :=
  ⟨rfl, rfl, rfl⟩

/-- Environment agreement on the relevant prefix makes the per-asset-type
collection-slug loop agree. -/
theorem collectionSlugLoop_env_agree (e1 e2 : Env) (vp at_ : String) (cs : Value)
    (h : ∀ p, yamlExt p = true →
      strStartsWith p ("templates/" ++ vp ++ "/" ++ at_) = true →
      e1.yamlFile p = e2.yamlFile p) :
    ∀ files, collectionSlugLoop e1 vp at_ cs files = collectionSlugLoop e2 vp at_ cs files := by
  intro files
  induction files with
  | nil => rfl
  | cons f rest ih =>
      cases hy : yamlExt f with
      | false => simp [collectionSlugLoop, hy, ih]
      | true =>
          cases hp : strStartsWith f ("templates/" ++ vp ++ "/" ++ at_) with
          | false => simp [collectionSlugLoop, hy, toString_string, hp, ih]
          | true =>
              simp [collectionSlugLoop, hy, toString_string, hp, loadYaml, h f hy hp, ih]

/-- Environment agreement on the notification-policies prefix makes the
notification-policy team-slug loop agree. -/
theorem notifPolicyLoop_env_agree (e1 e2 : Env) (vp : String) (ts : Value)
    (h : ∀ p, yamlExt p = true →
      strStartsWith p ("templates/" ++ vp ++ "/notification-policies") = true →
      e1.yamlFile p = e2.yamlFile p) :
    ∀ files, notifPolicyLoop e1 vp ts files = notifPolicyLoop e2 vp ts files := by
  intro files
  induction files with
  | nil => rfl
  | cons f rest ih =>
      cases hy : yamlExt f with
      | false => simp [notifPolicyLoop, hy, ih]
      | true =>
          cases hp : strStartsWith f ("templates/" ++ vp ++ "/notification-policies") with
          | false => simp [notifPolicyLoop, hy, toString_string, hp, ih]
          | true =>
              simp [notifPolicyLoop, hy, toString_string, hp, loadYaml, h f hy hp, ih]

/-- When the collection-slug loop succeeds, every prefix-matching YAML file
it visited loaded to a document whose `spec.collection_slug` equals the
collection slug. -/
theorem collectionSlugLoop_ok_sound (env : Env) (vp at_ : String) (cs : Value) :
    ∀ files, collectionSlugLoop env vp at_ cs files = .ok () →
      ∀ f ∈ files, yamlExt f = true →
        strStartsWith f ("templates/" ++ vp ++ "/" ++ at_) = true →
        ∀ doc, env.yamlFile f = some doc →
          ∃ s v, pySubscript doc "spec" = .ok s ∧ pySubscript s "collection_slug" = .ok v ∧
            Value.beq v cs = true := by
  intro files
  induction files with
  | nil => intro _ f hf; cases hf
  | cons g rest ih =>
      intro hok f hf hy hp doc hdoc
      rw [List.mem_cons] at hf
      simp only [collectionSlugLoop] at hok
      obtain ⟨u, hbody, hrest⟩ := bind_eq_ok.mp hok
      rcases hf with hf | hf
      · subst hf
        simp only [hy, reduceIte, toString_string, String.append_empty, String.empty_append] at hbody
        rw [hp] at hbody
        simp only [reduceIte, loadYaml, hdoc, ok_bind] at hbody
        obtain ⟨sv, hs, hbody2⟩ := bind_eq_ok.mp hbody
        obtain ⟨v, hv, hbody3⟩ := bind_eq_ok.mp hbody2
        cases hbeq : Value.beq v cs with
        | true => exact ⟨sv, v, hs, hv, hbeq⟩
        | false =>
            rw [hbeq] at hbody3
            simp at hbody3
      · exact ih hrest f hf hy hp doc hdoc

/-- When the notification-policy loop succeeds, every prefix-matching YAML
file it visited loaded to a document whose `spec.team_slug` equals the team
slug. -/
theorem notifPolicyLoop_ok_sound (env : Env) (vp : String) (ts : Value) :
    ∀ files, notifPolicyLoop env vp ts files = .ok () →
      ∀ f ∈ files, yamlExt f = true →
        strStartsWith f ("templates/" ++ vp ++ "/notification-policies") = true →
        ∀ doc, env.yamlFile f = some doc →
          ∃ s v, pySubscript doc "spec" = .ok s ∧ pySubscript s "team_slug" = .ok v ∧
            Value.beq v ts = true := by
  intro files
  induction files with
  | nil => intro _ f hf; cases hf
  | cons g rest ih =>
      intro hok f hf hy hp doc hdoc
      rw [List.mem_cons] at hf
      simp only [notifPolicyLoop] at hok
      obtain ⟨u, hbody, hrest⟩ := bind_eq_ok.mp hok
      rcases hf with hf | hf
      · subst hf
        simp only [hy, reduceIte, toString_string, String.append_empty, String.empty_append] at hbody
        rw [hp] at hbody
        simp only [reduceIte, loadYaml, hdoc, ok_bind] at hbody
        obtain ⟨sv, hs, hbody2⟩ := bind_eq_ok.mp hbody
        obtain ⟨v, hv, hbody3⟩ := bind_eq_ok.mp hbody2
        cases hbeq : Value.beq v ts with
        | true => exact ⟨sv, v, hs, hv, hbeq⟩
        | false =>
            rw [hbeq] at hbody3
            simp at hbody3
      · exact ih hrest f hf hy hp doc hdoc

/-- C3 amended: the two cross-file checks read the parsed content of exactly
the touched YAML-extension files whose paths start with
`templates/<product>/dashboards` or `templates/<product>/monitors`
(respectively `templates/<product>/notification-policies`) — with no
trailing separator required, so files outside the directories, such as
`templates/<product>/dashboardsx/a.yaml`, are also checked — and a
slug mismatch in any checked file makes the check fail. -/
theorem C3_prefix_scoped_cross_checks :
    (∀ (e1 e2 : Env) (vp : String) (files : List String) (cs : Value),
      (∀ p, yamlExt p = true →
        (strStartsWith p ("templates/" ++ vp ++ "/dashboards") = true ∨
         strStartsWith p ("templates/" ++ vp ++ "/monitors") = true) →
        e1.yamlFile p = e2.yamlFile p) →
      validate_collection_slug_for_platform_assets e1 vp files cs =
        validate_collection_slug_for_platform_assets e2 vp files cs)
    ∧ (∀ (e1 e2 : Env) (vp : String) (files : List String) (ts : Value),
      (∀ p, yamlExt p = true →
        strStartsWith p ("templates/" ++ vp ++ "/notification-policies") = true →
        e1.yamlFile p = e2.yamlFile p) →
      validate_team_slug_for_notif_policy e1 vp files ts =
        validate_team_slug_for_notif_policy e2 vp files ts)
    ∧ (∀ (env : Env) (vp : String) (files : List String) (cs : Value)
        (at_ : String) (f : String) (doc sv v : Value),
      (at_ = "dashboards" ∨ at_ = "monitors") →
      f ∈ files → yamlExt f = true →
      strStartsWith f ("templates/" ++ vp ++ "/" ++ at_) = true →
      env.yamlFile f = some doc →
      pySubscript doc "spec" = .ok sv → pySubscript sv "collection_slug" = .ok v →
      Value.beq v cs = false →
      validate_collection_slug_for_platform_assets env vp files cs ≠ .ok ())
    ∧ (∀ (env : Env) (vp : String) (files : List String) (ts : Value)
        (f : String) (doc sv v : Value),
      f ∈ files → yamlExt f = true →
      strStartsWith f ("templates/" ++ vp ++ "/notification-policies") = true →
      env.yamlFile f = some doc →
      pySubscript doc "spec" = .ok sv → pySubscript sv "team_slug" = .ok v →
      Value.beq v ts = false →
      validate_team_slug_for_notif_policy env vp files ts ≠ .ok ()) := by
  refine ⟨?_, ?_, ?_, ?_⟩
  · intro e1 e2 vp files cs h
    simp only [validate_collection_slug_for_platform_assets]
    rw [collectionSlugLoop_env_agree e1 e2 vp "dashboards" cs
          (fun p hy hp => h p hy (Or.inl (by rw [String.append_assoc] at hp; exact hp))) files,
        collectionSlugLoop_env_agree e1 e2 vp "monitors" cs
          (fun p hy hp => h p hy (Or.inr (by rw [String.append_assoc] at hp; exact hp))) files]
  · intro e1 e2 vp files ts h
    exact notifPolicyLoop_env_agree e1 e2 vp ts h files
  · intro env vp files cs at_ f doc sv v hat hf hy hp hload hs hv hbeq hok
    obtain ⟨u, h1, h2⟩ := bind_eq_ok.mp
      (show (collectionSlugLoop env vp "dashboards" cs files >>= fun _ =>
          collectionSlugLoop env vp "monitors" cs files) = .ok () from hok)
    rcases hat with hat | hat <;> subst hat
    · obtain ⟨sv', v', hs', hv', hbeq'⟩ :=
        collectionSlugLoop_ok_sound env vp "dashboards" cs files h1 f hf hy hp doc hload
      rw [hs] at hs'
      injection hs' with hsv; subst hsv
      rw [hv] at hv'
      injection hv' with hvv; subst hvv
      rw [hbeq] at hbeq'; cases hbeq'
    · obtain ⟨sv', v', hs', hv', hbeq'⟩ :=
        collectionSlugLoop_ok_sound env vp "monitors" cs files h2 f hf hy hp doc hload
      rw [hs] at hs'
      injection hs' with hsv; subst hsv
      rw [hv] at hv'
      injection hv' with hvv; subst hvv
      rw [hbeq] at hbeq'; cases hbeq'
  · intro env vp files ts f doc sv v hf hy hp hload hs hv hbeq hok
    obtain ⟨sv', v', hs', hv', hbeq'⟩ :=
      notifPolicyLoop_ok_sound env vp ts files hok f hf hy hp doc hload
    rw [hs] at hs'
    injection hs' with hsv; subst hsv
    rw [hv] at hv'
    injection hv' with hvv; subst hvv
    rw [hbeq] at hbeq'; cases hbeq'

/-- Witness for C3 at the `envC3` scenario: the mismatching file under
`dashboardsx/` makes the collection-slug check fail. -/
theorem C3_prefix_scoped_cross_checks_witness :
    validate_collection_slug_for_platform_assets envC3 "p" filesC3 (.vstr "c1") ≠ .ok () :=
  C3_prefix_scoped_cross_checks.2.2.1 envC3 "p" filesC3 (.vstr "c1") "dashboards"
    "templates/p/dashboardsx/a.yaml"
    (Value.dictOf
      [("api_version", .vstr "v1/config"), ("kind", .vstr "Dashboard"),
       ("spec", Value.dictOf [("slug", .vstr "d2"), ("name", .vstr "D2"),
         ("collection_slug", .vstr "evil"), ("dashboard_json", .vstr "\x7b\x7d")])])
    (Value.dictOf [("slug", .vstr "d2"), ("name", .vstr "D2"),
       ("collection_slug", .vstr "evil"), ("dashboard_json", .vstr "\x7b\x7d")])
    (.vstr "evil")
    (Or.inl rfl) (by decide) rfl rfl rfl rfl rfl rfl

-- C9 ----------------------------------------------------------------------------

/-- C9 counterexample: a product that passes every directory-level check but
whose touched files include `templates/p/dashboardsx/evil.yaml` — an empty
mapping outside any recognized asset directory.  The cross-file validator's
slash-less prefix match loads it anyway, and the unguarded access
`data['spec']` raises an uncaught `KeyError`. -/
theorem C9_counterexample_keyerror_after_dir_checks :
    validate_vendor_product_dir envC9 "p" filesC9 =
      .ok ["dashboards", "monitors", "notification-policies"]
    ∧ validate_cross_file_references envC9 "p" filesC9
        ["dashboards", "monitors", "notification-policies"] =
      .error (.keyError "spec") :=
  ⟨rfl, rfl⟩

/-- A successful directory-level validation decomposes into its stages (the
ones the cross-file claims need). -/
theorem validate_vendor_product_dir_ok_parts
    {env : Env} {vp : String} {files dirs : List String}
    (h : validate_vendor_product_dir env vp files = .ok dirs) :
    check_existing_asset_dirs vp files = .ok dirs
    ∧ check_required_files_in_assets env vp files dirs = .ok () := by
  unfold validate_vendor_product_dir at h
  obtain ⟨u1, h1, h⟩ := bind_eq_ok.mp h
  obtain ⟨u2, h2, h⟩ := bind_eq_ok.mp h
  obtain ⟨u3, h3, h⟩ := bind_eq_ok.mp h
  obtain ⟨dirs', h4, h⟩ := bind_eq_ok.mp h
  obtain ⟨u5, h5, h⟩ := bind_eq_ok.mp h
  obtain ⟨u6, h6, h⟩ := bind_eq_ok.mp h
  obtain ⟨u7, h7, h⟩ := bind_eq_ok.mp h
  simp only [pure_eq] at h
  injection h with h
  subst h
  exact ⟨h4, h6⟩

/-- A successful per-asset-directory requirements check means both message
lists came out empty. -/
theorem check_required_ok_lists
    {env : Env} {vp : String} {files dirs : List String}
    (h : check_required_files_in_assets env vp files dirs = .ok ()) :
    requiredFilesLists env vp files dirs = .ok ([], []) := by
  unfold check_required_files_in_assets at h
  obtain ⟨⟨m, i⟩, hl, hrest⟩ := bind_eq_ok.mp h
  cases m with
  | cons x xs => simp at hrest
  | nil =>
      cases i with
      | cons y ys => simp at hrest
      | nil => exact hl

/-- The per-kind validation loop over no files produces no messages. -/
theorem kindValidationMessages_nil (env : Env) (a : String) (exts : List String) :
    kindValidationMessages env a exts [] = [] := by
  unfold kindValidationMessages
  split
  · rfl
  · split
    · rfl
    · split
      · rfl
      · rfl

/-- When the accumulated invalid-file list is empty, each touched kind's
per-kind validation messages are empty. -/
theorem requiredFilesLists_mem_invalid_nil
    {env : Env} {vp : String} {files : List String} :
    ∀ {dirs : List String} {m : List String},
      requiredFilesLists env vp files dirs = .ok (m, []) →
      ∀ a ∈ dirs, ∃ exts, ALL_ASSET_TYPES.lookup a = some exts ∧
        kindValidationMessages env a exts
          (files.filter (fun f => strStartsWith f (assetPrefix vp a))) = [] := by
  intro dirs
  induction dirs with
  | nil => intro m _ a ha; cases ha
  | cons b rest ih =>
      intro m h a ha
      rw [List.mem_cons] at ha
      simp only [requiredFilesLists, toString_string] at h
      rcases hlk : ALL_ASSET_TYPES.lookup b with _ | exts <;> rw [hlk] at h
      · simp at h
      · simp only [ok_bind, pure_eq] at h
        cases hie : (files.filter
            (fun f => strStartsWith f ("templates/" ++ vp ++ "/" ++ b ++ "/"))).isEmpty with
        | true =>
            rw [hie] at h
            simp only [reduceIte] at h
            obtain ⟨⟨m', i'⟩, hrest, hpure⟩ := bind_eq_ok.mp h
            simp only [pure_eq, Except.ok.injEq, Prod.mk.injEq, List.nil_append] at hpure
            obtain ⟨hm, hi⟩ := hpure
            rcases ha with rfl | ha
            · refine ⟨exts, hlk, ?_⟩
              have hnil : files.filter
                  (fun f => strStartsWith f ("templates/" ++ vp ++ "/" ++ a ++ "/")) = [] := by
                simpa using hie
              simp only [assetPrefix, hnil]
              exact kindValidationMessages_nil env a exts
            · exact ih (hi ▸ hrest) a ha
        | false =>
            rw [hie] at h
            simp only [Bool.false_eq_true, if_false] at h
            obtain ⟨⟨m', i'⟩, hrest, hpure⟩ := bind_eq_ok.mp h
            simp only [pure_eq, Except.ok.injEq, Prod.mk.injEq, List.nil_append] at hpure
            obtain ⟨hm, hi⟩ := hpure
            obtain ⟨hi0, hi'⟩ := List.append_eq_nil.mp hi
            rcases ha with rfl | ha
            · refine ⟨exts, hlk, ?_⟩
              simp only [assetPrefix]
              exact (List.append_eq_nil.mp hi0).2
            · exact ih (hi' ▸ hrest) a ha

/-- An empty dashboards validation-message list means every matching file
with an accepted extension passed `validate_dashboard_file`. -/
theorem dashboards_messages_nil_ok
    {env : Env} {exts matching : List String}
    (h : kindValidationMessages env "dashboards" exts matching = [])
    {f : String} (hf : f ∈ matching) (he : endsWithAny f exts = true) :
    validate_dashboard_file env f = .ok () := by
  simp only [kindValidationMessages, reduceIte] at h
  have hfm := List.filterMap_eq_nil_iff.mp h f hf
  rw [he] at hfm
  simp only [reduceIte] at hfm
  rcases hres : validate_dashboard_file env f with e | u
  · rw [hres] at hfm; cases hfm
  · rfl

/-- An empty monitors validation-message list means every matching file with
an accepted extension passed `validate_monitor_file`. -/
theorem monitors_messages_nil_ok
    {env : Env} {exts matching : List String}
    (h : kindValidationMessages env "monitors" exts matching = [])
    {f : String} (hf : f ∈ matching) (he : endsWithAny f exts = true) :
    validate_monitor_file env f = .ok () := by
  simp only [kindValidationMessages, reduceIte] at h
  have hfm := List.filterMap_eq_nil_iff.mp h f hf
  rw [he] at hfm
  simp only [reduceIte] at hfm
  rcases hres : validate_monitor_file env f with e | u
  · rw [hres] at hfm; cases hfm
  · rfl

/-- An empty notification-policies validation-message list means every
matching file with an accepted extension passed `validate_notif_policy_file`. -/
theorem notif_messages_nil_ok
    {env : Env} {exts matching : List String}
    (h : kindValidationMessages env "notification-policies" exts matching = [])
    {f : String} (hf : f ∈ matching) (he : endsWithAny f exts = true) :
    validate_notif_policy_file env f = .ok () := by
  simp only [kindValidationMessages, reduceIte] at h
  have hfm := List.filterMap_eq_nil_iff.mp h f hf
  rw [he] at hfm
  simp only [reduceIte] at hfm
  rcases hres : validate_notif_policy_file env f with e | u
  · rw [hres] at hfm; cases hfm
  · rfl

-- Structural Matcher inversion lemmas -------------------------------------------

/-- Inversion of one successful `check_structure` step: the data must be a
dictionary holding the key, the value check must succeed, and so must the
rest. -/
theorem check_structure_cons_ok
    {data : Value} {key : String} {e : Expected} {rest : ExpectedFields} {fp par : String}
    (h : check_structure data (.cons key e rest) fp par = .ok ()) :
    ∃ d v, data = .vdict d ∧ dictGet d key = some v
      ∧ checkExpectedValue e v fp (par ++ key) = .ok ()
      ∧ check_structure data rest fp par = .ok () := by
  simp only [check_structure] at h
  obtain ⟨present, hc, h2⟩ := bind_eq_ok.mp h
  cases data with
  | vdict d =>
      simp only [pyContains, Except.ok.injEq] at hc
      cases hg : dictGet d key with
      | none =>
          rw [hg] at hc
          simp only [Option.isSome_none] at hc
          rw [← hc] at h2
          simp at h2
      | some v =>
          rw [hg] at hc
          simp only [Option.isSome_some] at hc
          rw [← hc] at h2
          simp only [Bool.not_true, Bool.false_eq_true, if_false, pySubscript, hg, ok_bind] at h2
          obtain ⟨u, hev, hrest⟩ := bind_eq_ok.mp h2
          exact ⟨d, v, rfl, hg, hev, hrest⟩
  | vstr s =>
      simp only [pyContains, Except.ok.injEq] at hc
      rw [← hc] at h2
      cases hb : charsHaveInfix key.data s.data <;> rw [hb] at h2 <;> simp [pySubscript] at h2
  | vlist l =>
      simp only [pyContains, Except.ok.injEq] at hc
      rw [← hc] at h2
      cases hb : elemsContainStr l key <;> rw [hb] at h2 <;> simp [pySubscript] at h2
  | vint n => simp [pyContains] at hc
  | vbool b => simp [pyContains] at hc
  | vnull => simp [pyContains] at hc

/-- Inversion of a successful nested-shape check: the value is a dictionary
whose contents pass the nested shape. -/
theorem checkExpectedValue_nested_ok
    {ns : ExpectedFields} {v : Value} {fp k : String}
    (h : checkExpectedValue (.nested ns) v fp k = .ok ()) :
    ∃ d, v = .vdict d ∧ check_structure (.vdict d) ns fp (k ++ ".") = .ok () := by
  cases v <;> simp only [checkExpectedValue] at h <;> try (simp at h)
  case vdict d => exact ⟨d, rfl, h⟩

/-- Inversion of a successful `str` type-marker check: the value is a
string. -/
theorem checkExpectedValue_ty_str_ok
    {v : Value} {fp k : String}
    (h : checkExpectedValue (.ty .str) v fp k = .ok ()) :
    ∃ s, v = .vstr s := by
  cases v <;> simp only [checkExpectedValue, pyIsInstance] at h <;> try (simp at h)
  case vstr s => exact ⟨s, rfl⟩

-- Conformance agrees with the Structural Matcher --------------------------------

mutual

/-- A conforming value passes the per-key dispatch of the Structural
Matcher. -/
theorem conforms_checkExpectedValue :
    ∀ (e : Expected) (v : Value) (fp k : String), conforms e v = true →
      checkExpectedValue e v fp k = .ok ()
  | .lit .vnull, v, fp, k, _ => rfl
  | .lit (.vstr s), v, fp, k, h => by
      simp only [conforms] at h
      simp [checkExpectedValue, h]
  | .lit (.vint n), v, fp, k, h => by
      simp only [conforms] at h
      simp [checkExpectedValue, h]
  | .lit (.vbool b), v, fp, k, h => by
      simp only [conforms] at h
      simp [checkExpectedValue, h]
  | .lit (.vdict dd), v, fp, k, h => by
      simp only [conforms] at h
      simp [checkExpectedValue, h]
  | .lit (.vlist l), v, fp, k, h => by
      simp only [conforms] at h
      simp [checkExpectedValue, h]
  | .ty t, v, fp, k, h => by
      simp only [conforms] at h
      simp [checkExpectedValue, h]
  | .nested ns, v, fp, k, h => by
      cases v with
      | vdict d =>
          simp only [conforms] at h
          simpa [checkExpectedValue] using conformsFields_check_structure ns d fp (k ++ ".") h
      | vstr s => simp [conforms] at h
      | vint n => simp [conforms] at h
      | vbool b => simp [conforms] at h
      | vnull => simp [conforms] at h
      | vlist l => simp [conforms] at h

/-- A dictionary whose shape keys are present with conforming values passes
`check_structure` — regardless of any other entries it has. -/
theorem conformsFields_check_structure :
    ∀ (fs : ExpectedFields) (d : ValueFields) (fp par : String),
      conformsFields fs d = true → check_structure (.vdict d) fs fp par = .ok ()
  | .nil, d, fp, par, _ => rfl
  | .cons k e rest, d, fp, par, h => by
      simp only [conformsFields, Bool.and_eq_true] at h
      obtain ⟨h1, h2⟩ := h
      cases hget : dictGet d k with
      | none => rw [hget] at h1; cases h1
      | some v =>
          rw [hget] at h1
          have hev := conforms_checkExpectedValue e v fp (par ++ k) h1
          have hrest := conformsFields_check_structure rest d fp par h2
          simp [check_structure, pyContains, hget, pySubscript, hev, hrest]

end

mutual

/-- A value passing the per-key dispatch of the Structural Matcher is
conforming. -/
theorem checkExpectedValue_conforms :
    ∀ (e : Expected) (v : Value) (fp k : String),
      checkExpectedValue e v fp k = .ok () → conforms e v = true
  | .lit .vnull, v, fp, k, _ => rfl
  | .lit (.vstr s), v, fp, k, h => by
      simp only [checkExpectedValue] at h
      cases hb : Value.beq v (.vstr s) <;> rw [hb] at h <;> simp at h
      · simpa [conforms] using hb
  | .lit (.vint n), v, fp, k, h => by
      simp only [checkExpectedValue] at h
      cases hb : Value.beq v (.vint n) <;> rw [hb] at h <;> simp at h
      · simpa [conforms] using hb
  | .lit (.vbool b), v, fp, k, h => by
      simp only [checkExpectedValue] at h
      cases hb : Value.beq v (.vbool b) <;> rw [hb] at h <;> simp at h
      · simpa [conforms] using hb
  | .lit (.vdict dd), v, fp, k, h => by
      simp only [checkExpectedValue] at h
      cases hb : Value.beq v (.vdict dd) <;> rw [hb] at h <;> simp at h
      · simpa [conforms] using hb
  | .lit (.vlist l), v, fp, k, h => by
      simp only [checkExpectedValue] at h
      cases hb : Value.beq v (.vlist l) <;> rw [hb] at h <;> simp at h
      · simpa [conforms] using hb
  | .ty t, v, fp, k, h => by
      simp only [checkExpectedValue] at h
      cases hb : pyIsInstance t v <;> rw [hb] at h <;> simp at h
      · simpa [conforms] using hb
  | .nested ns, v, fp, k, h => by
      obtain ⟨d, hv, hin⟩ := checkExpectedValue_nested_ok h
      subst hv
      simpa [conforms] using check_structure_conformsFields ns d fp (k ++ ".") hin

/-- A dictionary passing `check_structure` has every shape key present with
a conforming value. -/
theorem check_structure_conformsFields :
    ∀ (fs : ExpectedFields) (d : ValueFields) (fp par : String),
      check_structure (.vdict d) fs fp par = .ok () → conformsFields fs d = true
  | .nil, d, fp, par, _ => rfl
  | .cons k e rest, d, fp, par, h => by
      obtain ⟨d', v, hd, hget, hev, hrest⟩ := check_structure_cons_ok h
      injection hd with hd
      subst hd
      have h1 := checkExpectedValue_conforms e v fp (par ++ k) hev
      have h2 := check_structure_conformsFields rest d fp par hrest
      simp [conformsFields, hget, h1, h2]

end

/-- Elimination for one conforming shape key. -/
theorem conformsFields_cons_elim {k : String} {e : Expected} {rest : ExpectedFields}
    {d : ValueFields} (h : conformsFields (.cons k e rest) d = true) :
    ∃ v, dictGet d k = some v ∧ conforms e v = true ∧ conformsFields rest d = true := by
  simp only [conformsFields, Bool.and_eq_true] at h
  obtain ⟨h1, h2⟩ := h
  cases hget : dictGet d k with
  | none => rw [hget] at h1; cases h1
  | some v => rw [hget] at h1; exact ⟨v, rfl, h1, h2⟩

/-- A value conforming to a nested shape is a conforming dictionary. -/
theorem conforms_nested_elim {ns : ExpectedFields} {v : Value}
    (h : conforms (.nested ns) v = true) :
    ∃ d, v = .vdict d ∧ conformsFields ns d = true := by
  cases v <;> simp only [conforms] at h
  case vdict d => exact ⟨d, rfl, h⟩
  all_goals cases h

/-- A value conforming to the `str` type marker is a string. -/
theorem conforms_ty_str_elim {v : Value} (h : conforms (.ty .str) v = true) :
    ∃ s, v = .vstr s := by
  cases v <;> simp only [conforms, pyIsInstance] at h
  case vstr s => exact ⟨s, rfl⟩
  all_goals cases h

/-- The YAML-extension test is the accepted-extension test of the three
platform asset kinds. -/
theorem endsWithAny_yaml (f : String) : endsWithAny f [".yaml", ".yml"] = yamlExt f := by
  simp [endsWithAny, yamlExt, List.any_cons, List.any_nil]

/-- A dashboard file accepted by `validate_dashboard_file` parsed to a
dictionary holding `spec.collection_slug` as a string. -/
theorem validate_dashboard_ok_shape {env : Env} {f : String}
    (h : validate_dashboard_file env f = .ok ()) :
    ∃ d s v, env.yamlFile f = some (.vdict d) ∧ dictGet d "spec" = some (.vdict s) ∧
      dictGet s "collection_slug" = some (.vstr v) := by
  unfold validate_dashboard_file at h
  obtain ⟨data, hload, h⟩ := bind_eq_ok.mp h
  have henv : env.yamlFile f = some data := by
    unfold loadYaml at hload
    cases he : env.yamlFile f <;> rw [he] at hload
    · cases hload
    · injection hload with h'; rw [h']
  obtain ⟨u, hcs, _⟩ := bind_eq_ok.mp h
  simp only [DASHBOARD_EXPECTED_STRUCTURE, ExpectedFields.ofList] at hcs
  obtain ⟨d, v0, hdata, _, _, _⟩ := check_structure_cons_ok hcs
  subst hdata
  have hconf := check_structure_conformsFields _ d f "" hcs
  obtain ⟨_, _, _, hconf⟩ := conformsFields_cons_elim hconf
  obtain ⟨_, _, _, hconf⟩ := conformsFields_cons_elim hconf
  obtain ⟨vspec, hgspec, hcspec, _⟩ := conformsFields_cons_elim hconf
  obtain ⟨s, hvspec, hsf⟩ := conforms_nested_elim hcspec
  subst hvspec
  obtain ⟨_, _, _, hsf⟩ := conformsFields_cons_elim hsf
  obtain ⟨_, _, _, hsf⟩ := conformsFields_cons_elim hsf
  obtain ⟨w, hgw, hcw, _⟩ := conformsFields_cons_elim hsf
  obtain ⟨sv, hws⟩ := conforms_ty_str_elim hcw
  subst hws
  exact ⟨d, s, sv, henv, hgspec, hgw⟩

/-- A monitor file accepted by `validate_monitor_file` parsed to a
dictionary holding `spec.collection_slug` as a string. -/
theorem validate_monitor_ok_shape {env : Env} {f : String}
    (h : validate_monitor_file env f = .ok ()) :
    ∃ d s v, env.yamlFile f = some (.vdict d) ∧ dictGet d "spec" = some (.vdict s) ∧
      dictGet s "collection_slug" = some (.vstr v) := by
  unfold validate_monitor_file at h
  obtain ⟨data, hload, h⟩ := bind_eq_ok.mp h
  have henv : env.yamlFile f = some data := by
    unfold loadYaml at hload
    cases he : env.yamlFile f <;> rw [he] at hload
    · cases hload
    · injection hload with h'; rw [h']
  simp only [MONITOR_EXPECTED_STRUCTURE, ExpectedFields.ofList] at h
  obtain ⟨d, v0, hdata, _, _, _⟩ := check_structure_cons_ok h
  subst hdata
  have hconf := check_structure_conformsFields _ d f "" h
  obtain ⟨_, _, _, hconf⟩ := conformsFields_cons_elim hconf
  obtain ⟨_, _, _, hconf⟩ := conformsFields_cons_elim hconf
  obtain ⟨vspec, hgspec, hcspec, _⟩ := conformsFields_cons_elim hconf
  obtain ⟨s, hvspec, hsf⟩ := conforms_nested_elim hcspec
  subst hvspec
  obtain ⟨_, _, _, hsf⟩ := conformsFields_cons_elim hsf
  obtain ⟨_, _, _, hsf⟩ := conformsFields_cons_elim hsf
  obtain ⟨w, hgw, hcw, _⟩ := conformsFields_cons_elim hsf
  obtain ⟨sv, hws⟩ := conforms_ty_str_elim hcw
  subst hws
  exact ⟨d, s, sv, henv, hgspec, hgw⟩

/-- A notification policy accepted by `validate_notif_policy_file` parsed to
a dictionary holding `spec.team_slug` as a string. -/
theorem validate_notif_policy_ok_shape {env : Env} {f : String}
    (h : validate_notif_policy_file env f = .ok ()) :
    ∃ d s v, env.yamlFile f = some (.vdict d) ∧ dictGet d "spec" = some (.vdict s) ∧
      dictGet s "team_slug" = some (.vstr v) := by
  unfold validate_notif_policy_file at h
  obtain ⟨data, hload, h⟩ := bind_eq_ok.mp h
  have henv : env.yamlFile f = some data := by
    unfold loadYaml at hload
    cases he : env.yamlFile f <;> rw [he] at hload
    · cases hload
    · injection hload with h'; rw [h']
  simp only [NOTIFICATION_POLICY_EXPECTED_STRUCTURE, ExpectedFields.ofList] at h
  obtain ⟨d, v0, hdata, _, _, _⟩ := check_structure_cons_ok h
  subst hdata
  have hconf := check_structure_conformsFields _ d f "" h
  obtain ⟨_, _, _, hconf⟩ := conformsFields_cons_elim hconf
  obtain ⟨_, _, _, hconf⟩ := conformsFields_cons_elim hconf
  obtain ⟨vspec, hgspec, hcspec, _⟩ := conformsFields_cons_elim hconf
  obtain ⟨s, hvspec, hsf⟩ := conforms_nested_elim hcspec
  subst hvspec
  obtain ⟨_, _, _, hsf⟩ := conformsFields_cons_elim hsf
  obtain ⟨_, _, _, hsf⟩ := conformsFields_cons_elim hsf
  obtain ⟨w, hgw, hcw, _⟩ := conformsFields_cons_elim hsf
  obtain ⟨sv, hws⟩ := conforms_ty_str_elim hcw
  subst hws
  exact ⟨d, s, sv, henv, hgspec, hgw⟩

/-- C9 amended: for every product group that passes all directory-level
checks, every touched YAML file lying under the asset directories proper —
`templates/<product>/dashboards/`, `monitors/`, `notification-policies/`
with the trailing separator — parsed to a dictionary carrying the key the
cross-file validator reads (`spec.collection_slug`, resp. `spec.team_slug`)
as a string, so the unguarded accesses are safe on those files.  (The
validator's slash-less prefix match can additionally load files outside
these directories, and on those the access can raise `KeyError`, as the
counterexample shows.) -/
theorem C9_validated_asset_dirs_have_slug_keys
    (env : Env) (vp : String) (files dirs : List String)
    (h : validate_vendor_product_dir env vp files = .ok dirs) :
    (∀ f ∈ files, yamlExt f = true → strStartsWith f (assetPrefix vp "dashboards") = true →
      ∃ d s v, env.yamlFile f = some (.vdict d) ∧ dictGet d "spec" = some (.vdict s) ∧
        dictGet s "collection_slug" = some (.vstr v))
    ∧ (∀ f ∈ files, yamlExt f = true → strStartsWith f (assetPrefix vp "monitors") = true →
      ∃ d s v, env.yamlFile f = some (.vdict d) ∧ dictGet d "spec" = some (.vdict s) ∧
        dictGet s "collection_slug" = some (.vstr v))
    ∧ (∀ f ∈ files, yamlExt f = true →
        strStartsWith f (assetPrefix vp "notification-policies") = true →
      ∃ d s v, env.yamlFile f = some (.vdict d) ∧ dictGet d "spec" = some (.vdict s) ∧
        dictGet s "team_slug" = some (.vstr v)) := by
  obtain ⟨hdirs, hreq⟩ := validate_vendor_product_dir_ok_parts h
  have hlists := check_required_ok_lists hreq
  have hmem := requiredFilesLists_mem_invalid_nil hlists
  have hdirset := check_existing_asset_dirs_ok hdirs
  refine ⟨fun f hf hy hp => ?_, fun f hf hy hp => ?_, fun f hf hy hp => ?_⟩
  · have hmemd : "dashboards" ∈ dirs := by
      rw [hdirset]
      refine List.mem_filter.mpr ⟨by decide, List.any_eq_true.mpr ⟨f, hf, hp⟩⟩
    obtain ⟨exts, hexts, hmsgs⟩ := hmem "dashboards" hmemd
    have hexts' : exts = [".yaml", ".yml"] := by
      rw [show ALL_ASSET_TYPES.lookup "dashboards" = some [".yaml", ".yml"] from rfl] at hexts
      injection hexts with hx
      exact hx.symm
    subst hexts'
    have hok := dashboards_messages_nil_ok hmsgs
      (List.mem_filter.mpr ⟨hf, hp⟩) ((endsWithAny_yaml f).trans hy)
    exact validate_dashboard_ok_shape hok
  · have hmemd : "monitors" ∈ dirs := by
      rw [hdirset]
      refine List.mem_filter.mpr ⟨by decide, List.any_eq_true.mpr ⟨f, hf, hp⟩⟩
    obtain ⟨exts, hexts, hmsgs⟩ := hmem "monitors" hmemd
    have hexts' : exts = [".yaml", ".yml"] := by
      rw [show ALL_ASSET_TYPES.lookup "monitors" = some [".yaml", ".yml"] from rfl] at hexts
      injection hexts with hx
      exact hx.symm
    subst hexts'
    have hok := monitors_messages_nil_ok hmsgs
      (List.mem_filter.mpr ⟨hf, hp⟩) ((endsWithAny_yaml f).trans hy)
    exact validate_monitor_ok_shape hok
  · have hmemd : "notification-policies" ∈ dirs := by
      rw [hdirset]
      refine List.mem_filter.mpr ⟨by decide, List.any_eq_true.mpr ⟨f, hf, hp⟩⟩
    obtain ⟨exts, hexts, hmsgs⟩ := hmem "notification-policies" hmemd
    have hexts' : exts = [".yaml", ".yml"] := by
      rw [show ALL_ASSET_TYPES.lookup "notification-policies" = some [".yaml", ".yml"] from rfl] at hexts
      injection hexts with hx
      exact hx.symm
    subst hexts'
    have hok := notif_messages_nil_ok hmsgs
      (List.mem_filter.mpr ⟨hf, hp⟩) ((endsWithAny_yaml f).trans hy)
    exact validate_notif_policy_ok_shape hok

/-- Witness for C9 at the complete valid product of `envC9`: the dashboard
file under `dashboards/` carries `spec.collection_slug`. -/
theorem C9_validated_asset_dirs_have_slug_keys_witness :
    ∃ d s v, envC9.yamlFile "templates/p/dashboards/d1.yaml" = some (.vdict d)
      ∧ dictGet d "spec" = some (.vdict s)
      ∧ dictGet s "collection_slug" = some (.vstr v) :=
  (C9_validated_asset_dirs_have_slug_keys envC9 "p" filesC9
      ["dashboards", "monitors", "notification-policies"] rfl).1
    "templates/p/dashboards/d1.yaml" (by decide) rfl rfl

-- Dictionary-operation lemmas for the extra-key / removed-key claims -------------

/-- Removing a key empties its lookups. -/
theorem dictGet_removeTop_self (k : String) : ∀ d, dictGet (removeTop k d) k = none
  | .nil => rfl
  | .cons k' v rest => by
      by_cases hk : k' = k
      · simp [removeTop, hk, dictGet_removeTop_self k rest]
      · simp [removeTop, hk, dictGet, dictGet_removeTop_self k rest]

/-- Removing one key leaves other lookups unchanged. -/
theorem dictGet_removeTop_ne {k k' : String} (hne : k' ≠ k) :
    ∀ d, dictGet (removeTop k d) k' = dictGet d k'
  | .nil => rfl
  | .cons k0 v rest => by
      by_cases hk : k0 = k
      · subst hk
        simp [removeTop, dictGet, Ne.symm hne, dictGet_removeTop_ne hne rest]
      · by_cases hk' : k0 = k'
        · subst hk'
          simp [removeTop, hne, dictGet]
        · simp [removeTop, hk, dictGet, hk', dictGet_removeTop_ne hne rest]

/-- Rewriting the dictionaries at one key leaves other lookups unchanged. -/
theorem dictGet_mapDictAt_ne {k k' : String} (g : ValueFields → ValueFields) (hne : k' ≠ k) :
    ∀ d, dictGet (mapDictAt k g d) k' = dictGet d k'
  | .nil => rfl
  | .cons k0 v rest => by
      by_cases hk : k0 = k
      · subst hk
        simp [mapDictAt, dictGet, Ne.symm hne, dictGet_mapDictAt_ne g hne rest]
      · by_cases hk' : k0 = k'
        · subst hk'
          simp [mapDictAt, hne, dictGet]
        · simp [mapDictAt, hk, dictGet, hk', dictGet_mapDictAt_ne g hne rest]

/-- Rewriting the dictionaries at a key transforms exactly its first
lookup. -/
theorem dictGet_mapDictAt_self (k : String) (g : ValueFields → ValueFields) :
    ∀ d, dictGet (mapDictAt k g d) k =
      (dictGet d k).map (fun v => match v with | .vdict dd => .vdict (g dd) | other => other)
  | .nil => rfl
  | .cons k0 v rest => by
      by_cases hk : k0 = k
      · subst hk
        simp [mapDictAt, dictGet]
      · simp [mapDictAt, hk, dictGet, dictGet_mapDictAt_self k g rest]

/-- Appending an entry at the end leaves lookups of other keys unchanged. -/
theorem dictGet_appendField_ne {k k' : String} (v : Value) (hne : k' ≠ k) :
    ∀ d, dictGet (appendField d k v) k' = dictGet d k'
  | .nil => by simp [appendField, dictGet, Ne.symm hne]
  | .cons k0 w rest => by
      by_cases hk' : k0 = k'
      · simp [appendField, dictGet, hk']
      · simp [appendField, dictGet, hk', dictGet_appendField_ne v hne rest]

/-- A key absent from one shape level has no entry there. -/
theorem fieldsGet_none_of_hasKey_false {k : String} :
    ∀ {fs : ExpectedFields}, fieldsHasKey fs k = false → fieldsGet fs k = none
  | .nil, _ => rfl
  | .cons k0 e rest, h => by
      simp only [fieldsHasKey, Bool.or_eq_false_iff] at h
      obtain ⟨h1, h2⟩ := h
      have hne : k0 ≠ k := by simpa [beq_eq_false_iff_ne] using h1
      simp [fieldsGet, hne, fieldsGet_none_of_hasKey_false h2]

/-- A present key is detected by `fieldsHasKey`. -/
theorem fieldsHasKey_of_fieldsGet_some {k : String} {e : Expected} :
    ∀ {fs : ExpectedFields}, fieldsGet fs k = some e → fieldsHasKey fs k = true
  | .cons k0 e0 rest, h => by
      by_cases hk : k0 = k
      · simp [fieldsHasKey, hk]
      · simp only [fieldsGet, if_neg hk] at h
        simp [fieldsHasKey, fieldsHasKey_of_fieldsGet_some h]

/-- A detected key has an entry. -/
theorem fieldsGet_isSome_of_hasKey {k : String} :
    ∀ {fs : ExpectedFields}, fieldsHasKey fs k = true → (fieldsGet fs k).isSome = true
  | .nil, h => by cases h
  | .cons k0 e rest, h => by
      by_cases hk : k0 = k
      · simp [fieldsGet, hk]
      · simp only [fieldsHasKey, Bool.or_eq_true] at h
        rcases h with h | h
        · exact absurd (by simpa using h) hk
        · simp [fieldsGet, hk, fieldsGet_isSome_of_hasKey h]

/-- A key path starting at a missing key is not required. -/
theorem shapeHasPath_cons_false_of_none {fs : ExpectedFields} {k : String}
    (h : fieldsGet fs k = none) (p : List String) :
    shapeHasPath fs (k :: p) = false := by
  cases p with
  | nil =>
      simp only [shapeHasPath]
      cases hk : fieldsHasKey fs k
      · rfl
      · have := fieldsGet_isSome_of_hasKey hk
        rw [h] at this
        cases this
  | cons q rest => simp [shapeHasPath, h]

/-- Conformance only inspects a dictionary through the lookups of the
shape's keys. -/
theorem conformsFields_congr :
    ∀ (fs : ExpectedFields) (d1 d2 : ValueFields),
      (∀ key, fieldsHasKey fs key = true → dictGet d1 key = dictGet d2 key) →
      conformsFields fs d1 = conformsFields fs d2
  | .nil, _, _, _ => rfl
  | .cons k e rest, d1, d2, h => by
      have hk : dictGet d1 k = dictGet d2 k :=
        h k (by simp [fieldsHasKey])
      have hrest := conformsFields_congr rest d1 d2
        (fun key hkey => h key (by simp [fieldsHasKey, hkey]))
      simp only [conformsFields, hk, hrest]

/-- Appending an entry whose key the shape does not require preserves
conformance. -/
theorem conformsFields_appendField (k : String) (v : Value) :
    ∀ (fs : ExpectedFields) (d : ValueFields), fieldsHasKey fs k = false →
      conformsFields fs (appendField d k v) = conformsFields fs d := by
  intro fs d h
  refine conformsFields_congr fs _ d (fun key hkey => ?_)
  have hne : key ≠ k := fun he => by rw [he] at hkey; rw [hkey] at h; cases h
  exact dictGet_appendField_ne v hne d

/-- Inserting an extra entry at a key path the shape does not require
preserves conformance (lit values must be scalars and keys unique, as in
every shape image of a Python expected structure). -/
theorem conformsFields_insertAt :
    ∀ (p : List String) (k : String) (v : Value) (fs : ExpectedFields) (d : ValueFields),
      ExpectedFields.wf fs = true → shapeHasPath fs (p ++ [k]) = false →
      conformsFields fs (insertAt p k v d) = conformsFields fs d
  | [], k, v, fs, d, hwf, hpath =>
      conformsFields_appendField k v fs d (by simpa [shapeHasPath] using hpath)
  | k0 :: rest, k, v, .nil, d, hwf, hpath => rfl
  | k0 :: rest, k, v, .cons k1 e fsrest, d, hwf, hpath => by
      simp only [ExpectedFields.wf, Bool.and_eq_true] at hwf
      obtain ⟨⟨hk1notin, hewf⟩, hrestwf⟩ := hwf
      have hemp : (rest ++ [k]).isEmpty = false := by simp
      simp only [List.cons_append, shapeHasPath, List.append_eq, hemp, Bool.false_eq_true,
        if_false] at hpath
      simp only [insertAt]
      by_cases hkk : k1 = k0
      · subst hkk
        simp only [fieldsGet, if_pos rfl] at hpath
        have hget := dictGet_mapDictAt_self k1 (insertAt rest k v) d
        have hrest : conformsFields fsrest (mapDictAt k1 (insertAt rest k v) d) =
            conformsFields fsrest d := by
          refine conformsFields_congr fsrest _ d (fun key hkey => ?_)
          have hne : key ≠ k1 := fun he => by
            rw [he] at hkey; rw [hkey] at hk1notin; cases hk1notin
          exact dictGet_mapDictAt_ne _ hne d
        simp only [conformsFields, hget, hrest]
        cases hdg : dictGet d k1 with
        | none => rfl
        | some w =>
            simp only [Option.map_some]
            cases e with
            | nested ns =>
                replace hpath : shapeHasPath ns (rest ++ [k]) = false := hpath
                cases w with
                | vdict dd =>
                    have hrec := conformsFields_insertAt rest k v ns dd hewf hpath
                    exact congrArg (fun b => b && conformsFields fsrest d) hrec
                | vstr s => rfl
                | vint n => rfl
                | vbool b => rfl
                | vnull => rfl
                | vlist l => rfl
            | ty t =>
                cases w with
                | vdict dd => cases t <;> rfl
                | vstr s => rfl
                | vint n => rfl
                | vbool b => rfl
                | vnull => rfl
                | vlist l => rfl
            | lit lv =>
                cases lv with
                | vdict dd0 => cases hewf
                | vlist l0 => cases hewf
                | vstr s0 => cases w <;> rfl
                | vint n0 => cases w <;> rfl
                | vbool b0 => cases w <;> rfl
                | vnull => rfl
      · have hne : k1 ≠ k0 := hkk
        simp only [fieldsGet] at hpath
        rw [if_neg hne] at hpath
        have hget := dictGet_mapDictAt_ne (insertAt rest k v) hne d
        have hrest := conformsFields_insertAt (k0 :: rest) k v fsrest d hrestwf
          (by
            simp only [List.cons_append, shapeHasPath, List.append_eq, hemp, Bool.false_eq_true,
              if_false]
            exact hpath)
        simp only [insertAt] at hrest
        simp only [conformsFields, hget, hrest]
termination_by p k v fs d => (p.length, sizeOf fs)

/-- Removing a required key (along any required key path) from a document
that passes the Structural Matcher makes it fail with the missing-key error
naming exactly that dotted path. -/
theorem check_structure_removePath :
    ∀ (p : List String) (fs : ExpectedFields) (d : ValueFields) (fp par : String),
      ExpectedFields.wf fs = true → shapeHasPath fs p = true →
      check_structure (.vdict d) fs fp par = .ok () →
      check_structure (.vdict (removePath p d)) fs fp par =
        .error (.valueError s!"{fp}: Missing key '{par ++ dottedPath p}'.")
  | [], fs, d, fp, par, hwf, hpath, hok => nomatch hpath
  | [k], .nil, d, fp, par, hwf, hpath, hok => by
      simp [shapeHasPath, fieldsHasKey] at hpath
  | [k], .cons k1 e fsrest, d, fp, par, hwf, hpath, hok => by
      simp only [ExpectedFields.wf, Bool.and_eq_true] at hwf
      obtain ⟨⟨hk1notin, hewf⟩, hrestwf⟩ := hwf
      simp only [shapeHasPath, List.isEmpty_nil, if_true] at hpath
      obtain ⟨d', v, hd, hget, hev, hrest⟩ := check_structure_cons_ok hok
      injection hd with hd
      subst hd
      by_cases hkk : k1 = k
      · subst hkk
        simp only [removePath, check_structure, pyContains, dictGet_removeTop_self,
          Option.isSome_none, ok_bind, Bool.not_false, reduceIte, throw_eq]
        rfl
      · have hne : k1 ≠ k := hkk
        simp only [fieldsHasKey, Bool.or_eq_true] at hpath
        rcases hpath with hpath | hpath
        · exact absurd (by simpa using hpath) hne
        · have hrec := check_structure_removePath [k] fsrest d fp par hrestwf hpath hrest
          simp only [removePath] at hrec ⊢
          simp only [check_structure, pyContains, dictGet_removeTop_ne hne, hget,
            Option.isSome_some, ok_bind, Bool.not_true, Bool.false_eq_true, if_false,
            pySubscript, hev]
          exact hrec
  | k0 :: q :: rest', .nil, d, fp, par, hwf, hpath, hok => by
      simp [shapeHasPath, fieldsGet] at hpath
  | k0 :: q :: rest', .cons k1 e fsrest, d, fp, par, hwf, hpath, hok => by
      simp only [ExpectedFields.wf, Bool.and_eq_true] at hwf
      obtain ⟨⟨hk1notin, hewf⟩, hrestwf⟩ := hwf
      simp only [shapeHasPath, List.isEmpty_cons, Bool.false_eq_true, if_false] at hpath
      obtain ⟨d', v, hd, hget, hev, hrest⟩ := check_structure_cons_ok hok
      injection hd with hd
      subst hd
      by_cases hkk : k1 = k0
      · subst hkk
        simp only [fieldsGet, if_pos rfl] at hpath
        cases e with
        | lit lv => exact nomatch hpath
        | ty t => exact nomatch hpath
        | nested ns =>
            replace hpath : shapeHasPath ns (q :: rest') = true := hpath
            obtain ⟨dd, hv, hinner⟩ := checkExpectedValue_nested_ok hev
            subst hv
            have hrec := check_structure_removePath (q :: rest') ns dd fp
              ((par ++ k1) ++ ".") hewf hpath hinner
            simp only [removePath, check_structure, pyContains, dictGet_mapDictAt_self,
              hget, Option.map_some', Option.isSome_some, ok_bind, Bool.not_true,
              Bool.false_eq_true, if_false, pySubscript]
            rw [show checkExpectedValue (.nested ns)
                (.vdict (removePath (q :: rest') dd)) fp (par ++ k1) =
                check_structure (.vdict (removePath (q :: rest') dd)) ns fp
                  ((par ++ k1) ++ ".") from rfl]
            rw [hrec]
            simp only [error_bind, toString_string, dottedPath, String.append_assoc]
      · have hne : k1 ≠ k0 := hkk
        simp only [fieldsGet] at hpath
        rw [if_neg hne] at hpath
        have hpath' : shapeHasPath fsrest (k0 :: q :: rest') = true := by
          simp only [shapeHasPath, List.isEmpty_cons, Bool.false_eq_true, if_false]
          exact hpath
        have hrec := check_structure_removePath (k0 :: q :: rest') fsrest d fp par
          hrestwf hpath' hrest
        simp only [removePath] at hrec ⊢
        simp only [check_structure, pyContains, dictGet_mapDictAt_ne _ hne, hget,
          Option.isSome_some, ok_bind, Bool.not_true, Bool.false_eq_true, if_false,
          pySubscript, hev]
        exact hrec
termination_by p fs d fp par => (p.length, sizeOf fs)

/-- C7: for every expected shape (the embedding's shapes have no list
templates, and well-formedness states what every Python shape satisfies:
scalar literals and unique keys) — (1) a document passes the Structural
Matcher exactly when every required key is present with a conforming value,
keys not named in the shape being ignored; (2) inserting an extra entry at
any key path the shape does not require never changes whether the document
passes; (3) removing a required key from a passing document makes the
Matcher fail with the missing-key error naming exactly that dotted path. -/
theorem C7_structural_matcher_roundtrip :
    (∀ (fs : ExpectedFields) (d : ValueFields) (fp par : String),
      check_structure (.vdict d) fs fp par = .ok () ↔ conformsFields fs d = true)
    ∧ (∀ (p : List String) (k : String) (v : Value) (fs : ExpectedFields) (d : ValueFields)
        (fp par : String),
      ExpectedFields.wf fs = true → shapeHasPath fs (p ++ [k]) = false →
      (check_structure (.vdict (insertAt p k v d)) fs fp par = .ok () ↔
       check_structure (.vdict d) fs fp par = .ok ()))
    ∧ (∀ (p : List String) (fs : ExpectedFields) (d : ValueFields) (fp par : String),
      ExpectedFields.wf fs = true → shapeHasPath fs p = true →
      check_structure (.vdict d) fs fp par = .ok () →
      check_structure (.vdict (removePath p d)) fs fp par =
        .error (.valueError s!"{fp}: Missing key '{par ++ dottedPath p}'.")) := by
  refine ⟨fun fs d fp par =>
      ⟨check_structure_conformsFields fs d fp par, conformsFields_check_structure fs d fp par⟩,
    fun p k v fs d fp par hwf hpath => ?_,
    check_structure_removePath⟩
  constructor
  · intro h
    exact conformsFields_check_structure fs d fp par
      ((conformsFields_insertAt p k v fs d hwf hpath) ▸
        check_structure_conformsFields fs _ fp par h)
  · intro h
    exact conformsFields_check_structure fs _ fp par
      ((conformsFields_insertAt p k v fs d hwf hpath).symm ▸
        check_structure_conformsFields fs d fp par h)

/-- Witness for C7 at `shapeC7` / `docC7`: the document with extra keys
passes; adding one more extra key under `b` still passes; removing the
required nested key `b.c` fails with exactly `Missing key 'b.c'`. -/
theorem C7_structural_matcher_roundtrip_witness :
    check_structure (.vdict docC7) shapeC7 "f" "" = .ok ()
    ∧ check_structure (.vdict (insertAt ["b"] "extra" .vnull docC7)) shapeC7 "f" "" = .ok ()
    ∧ check_structure (.vdict (removePath ["b", "c"] docC7)) shapeC7 "f" "" =
        .error (.valueError "f: Missing key 'b.c'.") := by
  have h1 : check_structure (.vdict docC7) shapeC7 "f" "" = .ok () :=
    (C7_structural_matcher_roundtrip.1 shapeC7 docC7 "f" "").mpr rfl
  exact ⟨h1,
    (C7_structural_matcher_roundtrip.2.1 ["b"] "extra" .vnull shapeC7 docC7 "f" "" rfl rfl).mpr h1,
    C7_structural_matcher_roundtrip.2.2 ["b", "c"] shapeC7 docC7 "f" "" rfl rfl h1⟩

-- C10 ---------------------------------------------------------------------------

/-- Suffix tests compose. -/
theorem strEndsWith_trans {f s t : String} (h1 : strEndsWith f s = true)
    (h2 : strEndsWith s t = true) : strEndsWith f t = true := by
  unfold strEndsWith at h1 h2 ⊢
  exact List.isSuffixOf_iff_suffix.mpr
    ((List.isSuffixOf_iff_suffix.mp h2).trans (List.isSuffixOf_iff_suffix.mp h1))

/-- A suffix test is preserved by prepending. -/
theorem strEndsWith_append (x : String) {suf t : String} (h : strEndsWith suf t = true) :
    strEndsWith (x ++ suf) t = true := by
  unfold strEndsWith at h ⊢
  refine List.isSuffixOf_iff_suffix.mpr ((List.isSuffixOf_iff_suffix.mp h).trans ?_)
  rw [String.data_append]
  exact List.suffix_append x.data suf.data

/-- Files matched as team files have a YAML extension. -/
theorem yamlExt_of_teamFileMatch {f : String} (h : teamFileMatch f = true) :
    yamlExt f = true := by
  unfold teamFileMatch at h
  unfold yamlExt
  simp only [Bool.or_eq_true] at h ⊢
  rcases h with h | h
  · exact Or.inl (strEndsWith_trans h (by decide))
  · exact Or.inr (strEndsWith_trans h (by decide))

/-- Files matched as collection files have a YAML extension. -/
theorem yamlExt_of_collectionFileMatch {f : String} (h : collectionFileMatch f = true) :
    yamlExt f = true := by
  unfold collectionFileMatch at h
  unfold yamlExt
  simp only [Bool.or_eq_true] at h ⊢
  rcases h with h | h
  · exact Or.inl (strEndsWith_trans h (by decide))
  · exact Or.inr (strEndsWith_trans h (by decide))

/-- Files matched as the manifest have a YAML extension. -/
theorem yamlExt_of_manifestMatch {vp f : String} (h : manifestMatch vp f = true) :
    yamlExt f = true := by
  unfold manifestMatch at h
  unfold yamlExt
  simp only [Bool.or_eq_true] at h ⊢
  rcases h with h | h
  · rw [beq_iff_eq.mp h]
    exact Or.inl (strEndsWith_append _ (by decide))
  · rw [beq_iff_eq.mp h]
    exact Or.inr (strEndsWith_append _ (by decide))

/-- Congruence for `Except` bind with both sides rewritten. -/
theorem bind_congr_ok {ε α β : Type} {x y : Except ε α} {f g : α → Except ε β}
    (hx : x = y) (hf : ∀ a, f a = g a) : x >>= f = y >>= g := by
  subst hx
  cases x with
  | error e => rfl
  | ok a => simpa using hf a

/-- The head of a list, when present, is a member. -/
theorem mem_of_head?_some {α : Type} {l : List α} {a : α} (h : l.head? = some a) : a ∈ l := by
  cases l with
  | nil => cases h
  | cons x t =>
      injection h with h
      subst h
      exact List.mem_cons_self x t

/-- Environments agreeing on YAML paths load YAML identically. -/
theorem loadYaml_agree {e1 e2 : Env}
    (h1 : ∀ p, yamlExt p = true → e1.yamlFile p = e2.yamlFile p)
    (f : String) (hy : yamlExt f = true) : loadYaml e1 f = loadYaml e2 f := by
  unfold loadYaml
  rw [h1 f hy]

/-- Agreement on YAML and JSON paths makes the parseability pass agree. -/
theorem validate_files_parseable_agree {e1 e2 : Env}
    (h1 : ∀ p, yamlExt p = true → e1.yamlFile p = e2.yamlFile p)
    (h2 : ∀ p, strEndsWith p ".json" = true → e1.jsonFile p = e2.jsonFile p)
    (vp : String) :
    ∀ files, validate_files_parseable e1 vp files = validate_files_parseable e2 vp files := by
  intro files
  induction files with
  | nil => rfl
  | cons f rest ih =>
      unfold validate_files_parseable at ih ⊢
      refine bind_congr_ok ?_ fun _ => ih
      cases hy : (strEndsWith f ".yaml" || strEndsWith f ".yml") with
      | true =>
          have hyf : yamlExt f = true := hy
          simp only [hy, if_true, h1 f hyf]
      | false =>
          cases hj : strEndsWith f ".json" with
          | true => simp only [hy, Bool.false_eq_true, if_false, hj, if_true, h2 f hj]
          | false => simp only [hy, hj, Bool.false_eq_true, if_false]

/-- Agreement on YAML paths makes manifest validation agree on any manifest
path with a YAML extension. -/
theorem validate_manifest_file_agree {e1 e2 : Env}
    (h1 : ∀ p, yamlExt p = true → e1.yamlFile p = e2.yamlFile p)
    (mf : String) (hy : yamlExt mf = true) :
    validate_manifest_file e1 mf = validate_manifest_file e2 mf := by
  unfold validate_manifest_file
  rw [loadYaml_agree h1 mf hy]

/-- Agreement on YAML paths makes the manifest check agree. -/
theorem check_manifest_file_agree {e1 e2 : Env}
    (h1 : ∀ p, yamlExt p = true → e1.yamlFile p = e2.yamlFile p)
    (vp : String) (files : List String) :
    check_manifest_file e1 vp files = check_manifest_file e2 vp files := by
  unfold check_manifest_file
  cases hf : files.find? (manifestMatch vp) with
  | none => rfl
  | some mf =>
      exact validate_manifest_file_agree h1 mf (yamlExt_of_manifestMatch (List.find?_some hf))

/-- Agreement on YAML paths makes team-file validation agree. -/
theorem validate_team_file_agree {e1 e2 : Env}
    (h1 : ∀ p, yamlExt p = true → e1.yamlFile p = e2.yamlFile p)
    (f : String) (hy : yamlExt f = true) :
    validate_team_file e1 f = validate_team_file e2 f := by
  unfold validate_team_file
  rw [loadYaml_agree h1 f hy]

/-- Agreement on YAML paths makes collection-file validation agree. -/
theorem validate_collection_file_agree {e1 e2 : Env}
    (h1 : ∀ p, yamlExt p = true → e1.yamlFile p = e2.yamlFile p)
    (f : String) (hy : yamlExt f = true) :
    validate_collection_file e1 f = validate_collection_file e2 f := by
  unfold validate_collection_file
  rw [loadYaml_agree h1 f hy]

/-- Agreement on YAML paths makes monitor-file validation agree. -/
theorem validate_monitor_file_agree {e1 e2 : Env}
    (h1 : ∀ p, yamlExt p = true → e1.yamlFile p = e2.yamlFile p)
    (f : String) (hy : yamlExt f = true) :
    validate_monitor_file e1 f = validate_monitor_file e2 f := by
  unfold validate_monitor_file
  rw [loadYaml_agree h1 f hy]

/-- Agreement on YAML paths makes notification-policy file validation
agree. -/
theorem validate_notif_policy_file_agree {e1 e2 : Env}
    (h1 : ∀ p, yamlExt p = true → e1.yamlFile p = e2.yamlFile p)
    (f : String) (hy : yamlExt f = true) :
    validate_notif_policy_file e1 f = validate_notif_policy_file e2 f := by
  unfold validate_notif_policy_file
  rw [loadYaml_agree h1 f hy]

/-- Agreement on YAML paths and JSON text makes dashboard-file validation
agree. -/
theorem validate_dashboard_file_agree {e1 e2 : Env}
    (h1 : ∀ p, yamlExt p = true → e1.yamlFile p = e2.yamlFile p)
    (h3 : e1.jsonText = e2.jsonText)
    (f : String) (hy : yamlExt f = true) :
    validate_dashboard_file e1 f = validate_dashboard_file e2 f := by
  unfold validate_dashboard_file
  rw [loadYaml_agree h1 f hy]
  simp only [h3]

/-- Agreement on YAML paths and JSON text makes the per-kind validation
message list agree, given that the extension table entry of each
file-validated kind is the YAML pair (as in `ALL_ASSET_TYPES`). -/
theorem kindValidationMessages_agree {e1 e2 : Env}
    (h1 : ∀ p, yamlExt p = true → e1.yamlFile p = e2.yamlFile p)
    (h3 : e1.jsonText = e2.jsonText)
    (asset_type : String) (exts : List String) (mfiles : List String)
    (hexts : asset_type = "dashboards" ∨ asset_type = "monitors" ∨
      asset_type = "notification-policies" → exts = [".yaml", ".yml"]) :
    kindValidationMessages e1 asset_type exts mfiles =
      kindValidationMessages e2 asset_type exts mfiles := by
  unfold kindValidationMessages
  by_cases hd : asset_type = "dashboards"
  · subst hd
    have he : exts = [".yaml", ".yml"] := hexts (Or.inl rfl)
    subst he
    simp only [beq_self_eq_true, if_true]
    refine List.filterMap_congr fun f hf => ?_
    cases hx : endsWithAny f [".yaml", ".yml"] with
    | false => simp only [hx, Bool.false_eq_true, if_false]
    | true =>
        have hy : yamlExt f = true := (endsWithAny_yaml f) ▸ hx
        simp only [hx, if_true, validate_dashboard_file_agree h1 h3 f hy]
  · simp only [show (asset_type == "dashboards") = false from by simpa using hd,
      Bool.false_eq_true, if_false]
    by_cases hm : asset_type = "monitors"
    · subst hm
      have he : exts = [".yaml", ".yml"] := hexts (Or.inr (Or.inl rfl))
      subst he
      simp only [beq_self_eq_true, if_true]
      refine List.filterMap_congr fun f hf => ?_
      cases hx : endsWithAny f [".yaml", ".yml"] with
      | false => simp only [hx, Bool.false_eq_true, if_false]
      | true =>
          have hy : yamlExt f = true := (endsWithAny_yaml f) ▸ hx
          simp only [hx, if_true, validate_monitor_file_agree h1 f hy]
    · simp only [show (asset_type == "monitors") = false from by simpa using hm,
        Bool.false_eq_true, if_false]
      by_cases hn : asset_type = "notification-policies"
      · subst hn
        have he : exts = [".yaml", ".yml"] := hexts (Or.inr (Or.inr rfl))
        subst he
        simp only [beq_self_eq_true, if_true]
        refine List.filterMap_congr fun f hf => ?_
        cases hx : endsWithAny f [".yaml", ".yml"] with
        | false => simp only [hx, Bool.false_eq_true, if_false]
        | true =>
            have hy : yamlExt f = true := (endsWithAny_yaml f) ▸ hx
            simp only [hx, if_true, validate_notif_policy_file_agree h1 f hy]
      · simp only [show (asset_type == "notification-policies") = false from by simpa using hn,
          Bool.false_eq_true, if_false]

/-- Agreement on YAML paths and JSON text makes the two accumulated message
lists agree. -/
theorem requiredFilesLists_agree {e1 e2 : Env}
    (h1 : ∀ p, yamlExt p = true → e1.yamlFile p = e2.yamlFile p)
    (h3 : e1.jsonText = e2.jsonText)
    (vp : String) (files : List String) :
    ∀ dirs, requiredFilesLists e1 vp files dirs = requiredFilesLists e2 vp files dirs := by
  intro dirs
  induction dirs with
  | nil => rfl
  | cons asset_type rest ih =>
      unfold requiredFilesLists
      cases hlk : ALL_ASSET_TYPES.lookup asset_type with
      | none => rfl
      | some exts =>
          have hexts : asset_type = "dashboards" ∨ asset_type = "monitors" ∨
              asset_type = "notification-policies" → exts = [".yaml", ".yml"] := by
            rintro (rfl | rfl | rfl) <;>
              exact (Option.some.inj ((by rfl :
                ALL_ASSET_TYPES.lookup _ = some [".yaml", ".yml"]).symm.trans hlk)).symm
          simp only [hlk, pure_eq, ok_bind, toString_string, String.append_empty,
            kindValidationMessages_agree h1 h3 asset_type exts
              (files.filter (fun f =>
                strStartsWith f ("templates/" ++ vp ++ "/" ++ asset_type ++ "/"))) hexts,
            ih]

/-- Agreement on YAML paths and JSON text makes the required-files check
agree. -/
theorem check_required_files_in_assets_agree {e1 e2 : Env}
    (h1 : ∀ p, yamlExt p = true → e1.yamlFile p = e2.yamlFile p)
    (h3 : e1.jsonText = e2.jsonText)
    (vp : String) (files : List String) (dirs : List String) :
    check_required_files_in_assets e1 vp files dirs =
      check_required_files_in_assets e2 vp files dirs := by
  unfold check_required_files_in_assets
  rw [requiredFilesLists_agree h1 h3 vp files dirs]

/-- Agreement on YAML paths makes the platform-asset (collection/team) file
check agree. -/
theorem check_platform_asset_files_agree {e1 e2 : Env}
    (h1 : ∀ p, yamlExt p = true → e1.yamlFile p = e2.yamlFile p)
    (vp : String) (files : List String) (dirs : List String) :
    check_platform_asset_files e1 vp files dirs =
      check_platform_asset_files e2 vp files dirs := by
  unfold check_platform_asset_files
  cases hpa : PLATFORM_ASSET_TYPES.any (fun t => dirs.contains t) with
  | false => simp only [hpa, Bool.false_eq_true, if_false]
  | true =>
      simp only [hpa, if_true, toString_string]
      by_cases hl : (files.filter
          (fun f => strStartsWith f ("templates/" ++ vp ++ "/") && collectionFileMatch f)).length = 1
      · rw [if_neg (not_not_intro hl), if_neg (not_not_intro hl)]
        refine bind_congr_ok ?_ fun _ => ?_
        · cases hch : (files.filter
              (fun f => strStartsWith f ("templates/" ++ vp ++ "/") && collectionFileMatch f)).head? with
          | none => rfl
          | some cf =>
              have hcm : collectionFileMatch cf = true := by
                have hmem := mem_of_head?_some hch
                exact ((Bool.and_eq_true _ _).mp (List.mem_filter.mp hmem).2).2
              exact validate_collection_file_agree h1 cf (yamlExt_of_collectionFileMatch hcm)
        · by_cases ht : (files.filter
              (fun f => strStartsWith f ("templates/" ++ vp ++ "/") && teamFileMatch f)).length = 1
          · rw [if_neg (not_not_intro ht), if_neg (not_not_intro ht)]
            cases hth : (files.filter
                (fun f => strStartsWith f ("templates/" ++ vp ++ "/") && teamFileMatch f)).head? with
            | none => rfl
            | some tf =>
                have htm : teamFileMatch tf = true := by
                  have hmem := mem_of_head?_some hth
                  exact ((Bool.and_eq_true _ _).mp (List.mem_filter.mp hmem).2).2
                exact validate_team_file_agree h1 tf (yamlExt_of_teamFileMatch htm)
          · rw [if_pos ht, if_pos ht]
      · rw [if_pos hl, if_pos hl]

/-- Agreement on YAML paths makes team-slug extraction agree. -/
theorem get_team_slug_from_collection_agree {e1 e2 : Env}
    (h1 : ∀ p, yamlExt p = true → e1.yamlFile p = e2.yamlFile p)
    (vp : String) (files : List String) :
    get_team_slug_from_collection e1 vp files =
      get_team_slug_from_collection e2 vp files := by
  unfold get_team_slug_from_collection
  cases hf : files.find? teamFileMatch with
  | none => rfl
  | some tf =>
      simp only [ok_bind, pure_eq,
        loadYaml_agree h1 tf (yamlExt_of_teamFileMatch (List.find?_some hf))]

/-- Agreement on YAML paths makes the collection-vs-team slug comparison
agree. -/
theorem validate_team_slug_for_collection_agree {e1 e2 : Env}
    (h1 : ∀ p, yamlExt p = true → e1.yamlFile p = e2.yamlFile p)
    (vp : String) (files : List String) (ts : Value) :
    validate_team_slug_for_collection e1 vp files ts =
      validate_team_slug_for_collection e2 vp files ts := by
  unfold validate_team_slug_for_collection
  cases hf : files.find? collectionFileMatch with
  | none => rfl
  | some cf =>
      simp only [ok_bind, pure_eq,
        loadYaml_agree h1 cf (yamlExt_of_collectionFileMatch (List.find?_some hf))]

/-- Agreement on YAML paths makes the dashboards/monitors collection-slug
check agree. -/
theorem validate_collection_slug_for_platform_assets_agree {e1 e2 : Env}
    (h1 : ∀ p, yamlExt p = true → e1.yamlFile p = e2.yamlFile p)
    (vp : String) (files : List String) (cs : Value) :
    validate_collection_slug_for_platform_assets e1 vp files cs =
      validate_collection_slug_for_platform_assets e2 vp files cs := by
  unfold validate_collection_slug_for_platform_assets
  rw [collectionSlugLoop_env_agree e1 e2 vp "dashboards" cs (fun p hy _ => h1 p hy) files,
      collectionSlugLoop_env_agree e1 e2 vp "monitors" cs (fun p hy _ => h1 p hy) files]

/-- Agreement on YAML paths makes the notification-policy team-slug check
agree. -/
theorem validate_team_slug_for_notif_policy_agree {e1 e2 : Env}
    (h1 : ∀ p, yamlExt p = true → e1.yamlFile p = e2.yamlFile p)
    (vp : String) (files : List String) (ts : Value) :
    validate_team_slug_for_notif_policy e1 vp files ts =
      validate_team_slug_for_notif_policy e2 vp files ts :=
  notifPolicyLoop_env_agree e1 e2 vp ts (fun p hy _ => h1 p hy) files

/-- Agreement makes the whole cross-file stage agree. -/
theorem validate_cross_file_references_agree {e1 e2 : Env}
    (h1 : ∀ p, yamlExt p = true → e1.yamlFile p = e2.yamlFile p)
    (vp : String) (files : List String) (dirs : List String) :
    validate_cross_file_references e1 vp files dirs =
      validate_cross_file_references e2 vp files dirs := by
  unfold validate_cross_file_references
  cases hpa : dirs.any (fun t => PLATFORM_ASSET_TYPES.contains t) with
  | false => simp only [hpa, Bool.false_eq_true, if_false]
  | true =>
      simp only [hpa, if_true]
      refine bind_congr_ok (get_team_slug_from_collection_agree h1 vp files) fun ts => ?_
      refine bind_congr_ok (validate_team_slug_for_collection_agree h1 vp files ts) fun cs => ?_
      refine bind_congr_ok
        (validate_collection_slug_for_platform_assets_agree h1 vp files cs) fun _ => ?_
      exact validate_team_slug_for_notif_policy_agree h1 vp files ts

/-- Agreement makes the directory-level stage agree. -/
theorem validate_vendor_product_dir_agree {e1 e2 : Env}
    (h1 : ∀ p, yamlExt p = true → e1.yamlFile p = e2.yamlFile p)
    (h2 : ∀ p, strEndsWith p ".json" = true → e1.jsonFile p = e2.jsonFile p)
    (h3 : e1.jsonText = e2.jsonText)
    (vp : String) (files : List String) :
    validate_vendor_product_dir e1 vp files = validate_vendor_product_dir e2 vp files := by
  unfold validate_vendor_product_dir
  refine bind_congr_ok (validate_files_parseable_agree h1 h2 vp files) fun _ => ?_
  refine bind_congr_ok rfl fun _ => ?_
  refine bind_congr_ok (check_manifest_file_agree h1 vp files) fun _ => ?_
  refine bind_congr_ok rfl fun dirs => ?_
  refine bind_congr_ok rfl fun _ => ?_
  refine bind_congr_ok (check_required_files_in_assets_agree h1 h3 vp files dirs) fun _ => ?_
  refine bind_congr_ok (check_platform_asset_files_agree h1 vp files dirs) fun _ => rfl

/-- Agreement makes one product's full validation agree. -/
theorem validate_product_agree {e1 e2 : Env}
    (h1 : ∀ p, yamlExt p = true → e1.yamlFile p = e2.yamlFile p)
    (h2 : ∀ p, strEndsWith p ".json" = true → e1.jsonFile p = e2.jsonFile p)
    (h3 : e1.jsonText = e2.jsonText)
    (vp : String) (files : List String) :
    validate_product e1 vp files = validate_product e2 vp files := by
  unfold validate_product
  refine bind_congr_ok (validate_vendor_product_dir_agree h1 h2 h3 vp files) fun dirs => ?_
  exact validate_cross_file_references_agree h1 vp files dirs

/-- C10: for any two runs on the same changed-file list whose environments
agree on the parse result of every path with a `.yaml`/`.yml` extension, on
the parse result of every path with a `.json` extension, and on the JSON
text parser, the validation outcome is identical — the content of a touched
file with any other extension is never read and cannot affect whether
validation succeeds or which error is raised. -/
theorem C10_non_yaml_json_content_never_affects_validation
    (e1 e2 : Env) (changed_files : List String)
    (h1 : ∀ p, yamlExt p = true → e1.yamlFile p = e2.yamlFile p)
    (h2 : ∀ p, strEndsWith p ".json" = true → e1.jsonFile p = e2.jsonFile p)
    (h3 : e1.jsonText = e2.jsonText) :
    run_validation e1 changed_files = run_validation e2 changed_files := by
  unfold run_validation
  generalize group_changed_files changed_files = gs
  induction gs with
  | nil => rfl
  | cons g rest ih =>
      exact bind_congr_ok (validate_product_agree h1 h2 h3 g.1 g.2) fun _ => ih

/-- Witness: `envC10a` and `envC10b` differ precisely in the mapping of the
touched `.conf` path, satisfy the agreement hypotheses, and validate the
complete product identically. -/
theorem C10_non_yaml_json_content_never_affects_validation_witness :
    ((∀ p, yamlExt p = true → envC10a.yamlFile p = envC10b.yamlFile p)
      ∧ (∀ p, strEndsWith p ".json" = true → envC10a.jsonFile p = envC10b.jsonFile p)
      ∧ envC10a.jsonText = envC10b.jsonText)
    ∧ run_validation envC10a filesC10 = run_validation envC10b filesC10 := by
  have h1 : ∀ p, yamlExt p = true → envC10a.yamlFile p = envC10b.yamlFile p := by
    intro p hy
    by_cases hp : ("templates/p/parsers/x.conf" : String) = p
    · subst hp
      exact absurd hy (by decide)
    · show List.lookup p yamlTblC10 =
        List.lookup p (("templates/p/parsers/x.conf", Value.vnull) :: yamlTblC10)
      simp [List.lookup, beq_eq_false_iff_ne.mpr (Ne.symm hp)]
  have h2 : ∀ p, strEndsWith p ".json" = true → envC10a.jsonFile p = envC10b.jsonFile p :=
    fun p _ => rfl
  have h3 : envC10a.jsonText = envC10b.jsonText := rfl
  exact ⟨⟨h1, h2, h3⟩,
    C10_non_yaml_json_content_never_affects_validation envC10a envC10b filesC10 h1 h2 h3⟩
